import Mathlib

/-!
Verification of the genezio self-hosted AWS reconciliation engine.

This file gives a shallow embedding of the core deployment engine of the
repository: the CloudFormation template builder (`GenezioCloudFormationBuilder`),
the artifact staging against a versioned S3 bucket, the stack convergence
state machine (`updateStack` / `checkIfStackExists`), and the endpoint
resolution (`getFunctionUrl` and the final result assembly), together with
the `deployClasses` driver that selects a bundler per class language and
invokes the adapter. Remote AWS services are modelled as explicit state and
oracles (an `AwsWorld`), and every remote call the engine issues is recorded
in a `RemoteEvent` trace, so that theorems can speak about which remote
mutations a deployment performs and in which order.
-/

namespace Genezio

/-! ## Logical data model (from models/projectConfiguration and cloudAdapter) -/

/-- A method of a deployable class: name, trigger type (the source stores the
trigger as a string such as "http", "jsonrpc" or "cron") and optional cron
expression. -/
structure Method where
  name : String
  type : String
  cronString : Option String
  deriving DecidableEq, Repr

/-- A class entry of the project configuration: logical name, file path,
source language (an extension such as ".ts") and its methods. -/
structure ClassConfiguration where
  name : String
  path : String
  language : String
  methods : List Method
  deriving DecidableEq, Repr

/-- The project configuration consumed by the cloud adapter. -/
structure ProjectConfiguration where
  name : String
  region : String
  cloudProvider : String
  classes : List ClassConfiguration
  deriving DecidableEq, Repr

/-- One bundled deployable unit handed to the cloud adapter
(`GenezioCloudInput` in the source). -/
structure GenezioCloudInput where
  name : String
  archivePath : String
  filePath : String
  methods : List Method
  deriving DecidableEq, Repr

/-- A resolved method of the deployment result. -/
structure GenezioCloudResultMethod where
  name : String
  type : String
  cronString : Option String
  functionUrl : String
  deriving DecidableEq, Repr

/-- A resolved class of the deployment result. -/
structure GenezioCloudResultClass where
  className : String
  methods : List GenezioCloudResultMethod
  functionUrl : String
  deriving DecidableEq, Repr

/-- The deployment result (`GenezioCloudOutput` in the source). -/
structure GenezioCloudOutput where
  classes : List GenezioCloudResultClass
  deriving DecidableEq, Repr

/-- The errors the engine can raise. -/
inductive DeployError where
  | noClassesFound
  | unsupportedLanguage (language : String)
  | awsCredentialsNotFound
  | stackUpdateFailed
  | remote (message : String)
  | jsTypeError
  deriving DecidableEq, Repr

/-! ## CloudFormation template values -/

/-- A JSON-like value, the property bags of CloudFormation resources. -/
inductive CfValue where
  | str : String → CfValue
  | num : Int → CfValue
  | boolean : Bool → CfValue
  | arr : List CfValue → CfValue
  | obj : List (String × CfValue) → CfValue

/-- First binding of a key in an association list (JavaScript object lookup). -/
def lookupField : List (String × CfValue) → String → Option CfValue
  | [], _ => none
  | (k, v) :: rest, name => if k = name then some v else lookupField rest name

/-- JavaScript object property assignment: overwrite the binding in place if
the key exists, otherwise append it. -/
def setField : List (String × CfValue) → String → CfValue → List (String × CfValue)
  | [], name, v => [(name, v)]
  | (k, w) :: rest, name, v =>
    if k = name then (k, v) :: rest else (k, w) :: setField rest name v

/-- Read a string leaf. -/
def asString : CfValue → Option String
  | .str s => some s
  | _ => none

/-- Read a list of string leaves. -/
def asStrings : List CfValue → Option (List String)
  | [] => some []
  | v :: rest =>
    match asString v, asStrings rest with
    | some s, some l => some (s :: l)
    | _, _ => none

/-- Field access on an object value. -/
def getField (v : CfValue) (name : String) : Option CfValue :=
  match v with
  | .obj fields => lookupField fields name
  | _ => none

/-! ## CloudFormation resource contents (from GenezioCloudFormationBuilder
and SelfHostedAwsAdapter.deploy) -/

/-- `{"Ref": name}`. -/
def refValue (name : String) : CfValue := .obj [("Ref", .str name)]

/-- `{"Fn::GetAtt": [name, attr]}`. -/
def getAtt (name attr : String) : CfValue :=
  .obj [("Fn::GetAtt", .arr [.str name, .str attr])]

/-- `{"Fn::Join": [sep, parts]}`. -/
def fnJoin (sep : String) (parts : List CfValue) : CfValue :=
  .obj [("Fn::Join", .arr [.str sep, .arr parts])]

/-- The API gateway resource placed in the template by the builder
constructor. The description string reproduces the stray closing brace of
the source template literal. -/
def apiGatewayResource (apiGatewayResourceName : String) : CfValue :=
  .obj [("Type", .str "AWS::ApiGatewayV2::Api"),
        ("Properties", .obj
          [("Name", .str apiGatewayResourceName),
           ("ProtocolType", .str "HTTP"),
           ("Description", .str
             ("API Gateway for Genezio Project " ++ apiGatewayResourceName ++ "\x7d")),
           ("CorsConfiguration", .obj
             [("AllowOrigins", .arr [.str "*"]),
              ("AllowMethods", .arr [.str "*"]),
              ("AllowHeaders", .arr [.str "*"]),
              ("MaxAge", .num 10800)])])]

/-- The fixed deploy-stage resource appended by `build`. -/
def apiStageResource (apiGatewayResourceName : String) : CfValue :=
  .obj [("Type", .str "AWS::ApiGatewayV2::Stage"),
        ("Properties", .obj
          [("ApiId", refValue apiGatewayResourceName),
           ("AutoDeploy", .boolean true),
           ("StageName", .str "prod")])]

/-- The deployment resource appended by `build`; it depends on every
previously recorded resource id plus the stage. -/
def apiDeploymentResource (apiGatewayResourceName : String) (resourceIds : List String) : CfValue :=
  .obj [("Type", .str "AWS::ApiGatewayV2::Deployment"),
        ("DependsOn", .arr ((resourceIds ++ ["ApiStage"]).map .str)),
        ("Properties", .obj
          [("ApiId", refValue apiGatewayResourceName),
           ("StageName", .str "prod")])]

/-- The single declared output: the base invocation URL of the gateway. -/
def apiUrlOutput (apiGatewayResourceName : String) : CfValue :=
  .obj [("Description", .str "The URL of the API Gateway"),
        ("Value", fnJoin ""
          [.str "https://", refValue apiGatewayResourceName, .str ".execute-api.",
           refValue "AWS::Region", .str ".amazonaws.com/prod/"])]

/-- The invoke-permission resource of one deployable unit. -/
def invokePermissionResource (apiGatewayResourceName lambdaFunctionResourceName : String) : CfValue :=
  .obj [("Type", .str "AWS::Lambda::Permission"),
        ("Properties", .obj
          [("Action", .str "lambda:InvokeFunction"),
           ("FunctionName", getAtt lambdaFunctionResourceName "Arn"),
           ("Principal", .str "apigateway.amazonaws.com"),
           ("SourceArn", fnJoin ""
             [.str "arn:aws:execute-api:", refValue "AWS::Region", .str ":",
              refValue "AWS::AccountId", .str ":",
              refValue apiGatewayResourceName, .str "/*"])])]

/-- A route resource bound to an integration. -/
def routeResource (apiGatewayResourceName routeKey integrationResourceName : String) : CfValue :=
  .obj [("Type", .str "AWS::ApiGatewayV2::Route"),
        ("Properties", .obj
          [("ApiId", refValue apiGatewayResourceName),
           ("RouteKey", .str routeKey),
           ("Target", fnJoin "/" [.str "integrations", refValue integrationResourceName])])]

/-- The integration resource pointing at the function of one unit. -/
def integrationResource (apiGatewayResourceName lambdaFunctionResourceName : String) : CfValue :=
  .obj [("Type", .str "AWS::ApiGatewayV2::Integration"),
        ("Properties", .obj
          [("ApiId", refValue apiGatewayResourceName),
           ("IntegrationType", .str "AWS_PROXY"),
           ("PayloadFormatVersion", .str "2.0"),
           ("IntegrationUri", fnJoin ""
             [.str "arn:", refValue "AWS::Partition", .str ":apigateway:",
              refValue "AWS::Region", .str ":lambda:path/2015-03-31/functions/",
              getAtt lambdaFunctionResourceName "Arn", .str "/invocations"])])]

/-- The function resource. When the head-object call yielded no version id
the `S3ObjectVersion` field is absent, as `JSON.stringify` drops `undefined`
properties. -/
def lambdaFunctionResource (lambdaFunctionResourceName runtime roleResourceName
    bucketName bucketKey : String) (version : Option String) : CfValue :=
  .obj [("Type", .str "AWS::Lambda::Function"),
        ("Properties", .obj
          [("FunctionName", .str lambdaFunctionResourceName),
           ("Handler", .str "index.handler"),
           ("Architectures", .arr [.str "arm64"]),
           ("Runtime", .str runtime),
           ("Role", getAtt roleResourceName "Arn"),
           ("Code", .obj
             ([("S3Bucket", .str bucketName), ("S3Key", .str bucketKey)] ++
              (match version with
               | some v => [("S3ObjectVersion", .str v)]
               | none => []))),
           ("MemorySize", .num 1024),
           ("Timeout", .num 10)])]

/-- The execution-role resource with the log-write-only inline policy. -/
def roleResource : CfValue :=
  .obj [("Type", .str "AWS::IAM::Role"),
        ("Properties", .obj
          [("AssumeRolePolicyDocument", .obj
             [("Version", .str "2012-10-17"),
              ("Statement", .arr
                [.obj [("Effect", .str "Allow"),
                       ("Principal", .obj [("Service", .arr [.str "lambda.amazonaws.com"])]),
                       ("Action", .arr [.str "sts:AssumeRole"])]])]),
           ("Policies", .arr
             [.obj [("PolicyName", .str "LambdaExecutionPolicy"),
                    ("PolicyDocument", .obj
                      [("Version", .str "2012-10-17"),
                       ("Statement", .arr
                         [.obj [("Effect", .str "Allow"),
                                ("Action", .arr
                                  [.str "logs:CreateLogGroup",
                                   .str "logs:CreateLogStream",
                                   .str "logs:PutLogEvents"]),
                                ("Resource", .str "arn:aws:logs:*:*:*")]])])]])])]

/-! ## Template builder -/

/-- The mutable template builder of the source: the `Resources` object in
insertion order, the pushed resource ids, and the gateway resource name. -/
structure GenezioCloudFormationBuilder where
  resources : List (String × CfValue)
  resourceIds : List String
  apiGatewayResourceName : String

/-- Builder constructor: the template starts with the gateway resource. -/
def mkBuilder (apiGatewayResourceName : String) : GenezioCloudFormationBuilder :=
  { resources := [(apiGatewayResourceName, apiGatewayResource apiGatewayResourceName)],
    resourceIds := [],
    apiGatewayResourceName := apiGatewayResourceName }

/-- `addResource`: assign into the `Resources` object and push the id. -/
def addResource (b : GenezioCloudFormationBuilder) (name : String) (content : CfValue) :
    GenezioCloudFormationBuilder :=
  { b with resources := setField b.resources name content,
           resourceIds := b.resourceIds ++ [name] }

/-- The built template: resources plus the declared outputs. -/
structure StackTemplate where
  resources : List (String × CfValue)
  outputs : List (String × CfValue)

/-- `build`: append the fixed stage and deployment resources and declare the
gateway URL output. -/
def build (b : GenezioCloudFormationBuilder) : StackTemplate :=
  { resources :=
      setField
        (setField b.resources "ApiStage" (apiStageResource b.apiGatewayResourceName))
        "ApiDeployment" (apiDeploymentResource b.apiGatewayResourceName b.resourceIds),
    outputs := [("ApiUrl", apiUrlOutput b.apiGatewayResourceName)] }

/-! ## Versioned object storage (S3) model

A put assigns the next version id from a storage-side generator and stores it
as the current version of the (bucket, key) object; the response of the put
call itself carries a possibly different reported id, which the source
discards. A head-object call returns the currently stored version id. -/

/-- Update or insert the binding of a (bucket, key) pair. -/
def setAssoc : List ((String × String) × String) → String × String → String →
    List ((String × String) × String)
  | [], k, v => [(k, v)]
  | (k', v') :: rest, k, v =>
    if k' = k then (k, v) :: rest else (k', v') :: setAssoc rest k v

/-- First binding of a (bucket, key) pair. -/
def lookupAssoc : List ((String × String) × String) → String × String → Option String
  | [], _ => none
  | (k', v') :: rest, k => if k' = k then some v' else lookupAssoc rest k

/-- The state of the object storage backend: how many puts have been issued
so far (the index into the version generator) and the stored objects. -/
structure S3State where
  putCount : Nat
  objects : List ((String × String) × String)
  deriving Repr

/-- A put: the storage layer assigns version `versionGen putCount` to the
stored object. -/
def putObject (versionGen : Nat → String) (st : S3State) (bucket key : String) : S3State :=
  { putCount := st.putCount + 1,
    objects := setAssoc st.objects (bucket, key) (versionGen st.putCount) }

/-- A head-object call: the version id currently stored. -/
def headObject (st : S3State) (bucket key : String) : Option String :=
  lookupAssoc st.objects (bucket, key)

/-- `getLatestObjectVersion` of the source: a head-object call returning the
stored `VersionId`. -/
def getLatestObjectVersion (st : S3State) (bucket key : String) : Option String :=
  headObject st bucket key

/-- `#uploadZipToS3` of the source: issue the put and return the new storage
state together with the version id reported by the put response. The source
ignores the response, so only the first component is ever consumed. -/
def uploadZipToS3 (versionGen putReported : Nat → String) (st : S3State)
    (bucket key : String) : S3State × String :=
  (putObject versionGen st bucket key, putReported st.putCount)

/-! ## Remote call trace -/

/-- One remote call issued by the engine. -/
inductive RemoteEvent where
  | headBucket (bucket : String)
  | createBucket (bucket : String)
  | putBucketVersioning (bucket : String)
  | putObject (bucket key : String)
  | headObject (bucket key : String)
  | describeStacks (stackName : String)
  | createStack (stackName : String)
  | deleteStack (stackName : String)
  | updateStackCmd (stackName : String)
  | awaitCreateComplete (stackName : String)
  | awaitDeleteComplete (stackName : String)
  | awaitUpdateComplete (stackName : String)
  deriving DecidableEq, Repr

/-! ## CloudFormation remote model and convergence engine -/

/-- An error raised by a remote CloudFormation call. -/
structure CfError where
  message : String
  deriving DecidableEq, Repr

/-- One stack as reported by a describe-stacks call; a stack output is
modelled by its `OutputValue`. -/
structure StackDetails where
  StackStatus : Option String
  Outputs : Option (List (Option String))
  deriving DecidableEq, Repr

/-- The result of a describe-stacks call; the stack list itself may be
absent. -/
structure DescribeStacksOutput where
  Stacks : Option (List StackDetails)
  deriving DecidableEq, Repr

/-- The probe result of `#checkIfStackExists`. -/
structure ExistsResult where
  stackExists : Bool
  status : Option String
  deriving DecidableEq, Repr

/-- The not-found message the probe recognises. -/
def notFoundMessage (stackName : String) : String :=
  "Stack with id " ++ stackName ++ " does not exist"

/-- `#checkIfStackExists`: an empty stack list maps to absent; a describe
error whose message is exactly the not-found message maps to absent; every
other error is rethrown. An undefined stack list falls into the exists
branch with an undefined status, as in the source. -/
def checkIfStackExists (stackName : String)
    (remote : Except CfError DescribeStacksOutput) : Except CfError ExistsResult :=
  match remote with
  | .ok stack =>
    match stack.Stacks with
    | some [] => .ok { stackExists := false, status := none }
    | some (s :: _) => .ok { stackExists := true, status := s.StackStatus }
    | none => .ok { stackExists := true, status := none }
  | .error e =>
    if e.message = notFoundMessage stackName then
      .ok { stackExists := false, status := none }
    else
      .error e

/-- Turn the outcome of a bounded wait into an optional fatal error. -/
def waitErr : Except CfError Unit → Option DeployError
  | .ok _ => none
  | .error e => some (.remote e.message)

/-- The mutation half of `#updateStack`, after the probe: absent issues a
create and awaits its completion; a `ROLLBACK_COMPLETE` status issues a
delete, awaits it, then a create and awaits it; any other existing status
issues an update and awaits it. Each await that fails aborts the
invocation; a failed delete wait prevents the subsequent create. -/
def updateStackActions (stackName : String) (res : ExistsResult)
    (waitCreateRes waitDeleteRes waitUpdateRes : Except CfError Unit) :
    List RemoteEvent × Option DeployError :=
  if !res.stackExists then
    ([.createStack stackName, .awaitCreateComplete stackName], waitErr waitCreateRes)
  else if res.stackExists && res.status == some "ROLLBACK_COMPLETE" then
    match waitDeleteRes with
    | .error e =>
      ([.deleteStack stackName, .awaitDeleteComplete stackName], some (.remote e.message))
    | .ok _ =>
      ([.deleteStack stackName, .awaitDeleteComplete stackName,
        .createStack stackName, .awaitCreateComplete stackName], waitErr waitCreateRes)
  else
    ([.updateStackCmd stackName, .awaitUpdateComplete stackName], waitErr waitUpdateRes)

/-- `#updateStack`: probe the stack, then run the state-machine row for the
probed status. A probe error that is not the not-found condition is fatal. -/
def updateStack (stackName : String) (describeRes : Except CfError DescribeStacksOutput)
    (waitCreateRes waitDeleteRes waitUpdateRes : Except CfError Unit) :
    List RemoteEvent × Option DeployError :=
  match checkIfStackExists stackName describeRes with
  | .error e => ([.describeStacks stackName], some (.remote e.message))
  | .ok res =>
    let r := updateStackActions stackName res waitCreateRes waitDeleteRes waitUpdateRes
    (.describeStacks stackName :: r.1, r.2)

/-! ## The deploy pipeline of SelfHostedAwsAdapter -/

/-- `alphanumericString`: strip every character outside `0-9a-zA-Z`. -/
def alphanumericString (input : String) : String :=
  String.mk (input.data.filter fun c => c.isAlphanum)

/-- The fixed language to runtime table (`#getFunctionRuntime`); an
unrecognised language is a fatal unsupported-language error. -/
def getFunctionRuntime (language : String) : Except DeployError String :=
  if language == ".js" || language == ".ts" then .ok "nodejs14.x"
  else if language == ".dart" then .ok "provided.al2"
  else .error (.unsupportedLanguage language)

/-- The class configuration matching an input item, found by file path. -/
def findClassConfiguration (projectConfiguration : ProjectConfiguration)
    (filePath : String) : Option ClassConfiguration :=
  projectConfiguration.classes.find? fun c => c.path == filePath

/-- The deterministic bucket key of one unit's artifact. -/
def deployBucketKey (projectConfiguration : ProjectConfiguration)
    (inputItem : GenezioCloudInput) : String :=
  "genezio-" ++ projectConfiguration.name ++ "/lambda-" ++ inputItem.name ++ ".zip"

/-- The rolling state of the synthesis loop: the template builder, the
object-storage state and the remote calls issued so far. -/
structure SynthState where
  builder : GenezioCloudFormationBuilder
  s3 : S3State
  events : List RemoteEvent

/-- One iteration of the per-unit loop of `deploy`: upload the archive, emit
the invoke permission, one dedicated route per http-typed method of the
class configuration, the catch-all route and the integration; then resolve
the runtime (fatal for an unknown language, and a missing class
configuration is the dereference error of the source), re-resolve the
uploaded object's version and emit the function and role resources. -/
def processItem (projectConfiguration : ProjectConfiguration)
    (bucketName apiGatewayResourceName : String) (versionGen putReported : Nat → String)
    (st : SynthState) (inputItem : GenezioCloudInput) : SynthState × Option DeployError :=
  let classConfiguration := findClassConfiguration projectConfiguration inputItem.filePath
  let bucketKey := deployBucketKey projectConfiguration inputItem
  let a := alphanumericString inputItem.name
  let lambdaFunctionResourceName := "LambdaFunction" ++ a
  let invokePermissionResourceName := "LambdaInvokePermission" ++ a
  let routeResourceName := "Route" ++ a
  let integrationResourceName := "Integration" ++ a
  let roleResourceName := "Role" ++ a
  let uploadResult := uploadZipToS3 versionGen putReported st.s3 bucketName bucketKey
  let s3A := uploadResult.1
  let eventsA := st.events ++ [.putObject bucketName bucketKey]
  let b1 := addResource st.builder invokePermissionResourceName
    (invokePermissionResource apiGatewayResourceName lambdaFunctionResourceName)
  let classMethods : List Method :=
    match classConfiguration with
    | some c => c.methods
    | none => []
  let httpMethods := classMethods.filter fun m => m.type == "http"
  let b2 := httpMethods.foldl
    (fun acc m => addResource acc (routeResourceName ++ m.name)
      (routeResource apiGatewayResourceName
        ("ANY /" ++ inputItem.name ++ "/" ++ m.name) integrationResourceName))
    b1
  let b3 := addResource b2 routeResourceName
    (routeResource apiGatewayResourceName ("ANY /" ++ inputItem.name) integrationResourceName)
  let b4 := addResource b3 integrationResourceName
    (integrationResource apiGatewayResourceName lambdaFunctionResourceName)
  match classConfiguration with
  | none => (⟨b4, s3A, eventsA⟩, some .jsTypeError)
  | some cls =>
    match getFunctionRuntime cls.language with
    | .error e => (⟨b4, s3A, eventsA⟩, some e)
    | .ok runtime =>
      let version := getLatestObjectVersion s3A bucketName bucketKey
      let eventsB := eventsA ++ [.headObject bucketName bucketKey]
      let b5 := addResource b4 lambdaFunctionResourceName
        (lambdaFunctionResource lambdaFunctionResourceName runtime roleResourceName
          bucketName bucketKey version)
      let b6 := addResource b5 roleResourceName roleResource
      (⟨b6, s3A, eventsB⟩, none)

/-- The sequential per-unit loop; a failing iteration aborts the deploy. -/
def processItems (projectConfiguration : ProjectConfiguration)
    (bucketName apiGatewayResourceName : String) (versionGen putReported : Nat → String) :
    List GenezioCloudInput → SynthState → SynthState × Option DeployError
  | [], st => (st, none)
  | inputItem :: rest, st =>
    match processItem projectConfiguration bucketName apiGatewayResourceName
        versionGen putReported st inputItem with
    | (st', some e) => (st', some e)
    | (st', none) =>
      processItems projectConfiguration bucketName apiGatewayResourceName
        versionGen putReported rest st'

/-- JavaScript template interpolation of a possibly undefined value. -/
def optString : Option String → String
  | some s => s
  | none => "undefined"

/-- `getFunctionUrl`: an http method gets a dedicated URL under the unit,
any other method resolves to the unit base URL. -/
def getFunctionUrl (baseUrl methodType className methodName : String) : String :=
  if methodType == "http" then baseUrl ++ "/" ++ className ++ "/" ++ methodName
  else baseUrl ++ "/" ++ className

/-- The tail of `deploy` after convergence: validate that the re-fetched
stack status is exactly `CREATE_COMPLETE` or `UPDATE_COMPLETE` (a missing or
empty stack list also fails), read the first output value as the gateway
base URL (a missing output list is the dereference error of the source) and
assemble the per-class, per-method URLs. -/
def finalizeDeploy (stackDetails : DescribeStacksOutput)
    (input : List GenezioCloudInput) : Except DeployError GenezioCloudOutput :=
  match stackDetails.Stacks with
  | none => .error .stackUpdateFailed
  | some [] => .error .stackUpdateFailed
  | some (s :: _) =>
    if !(s.StackStatus == some "UPDATE_COMPLETE" || s.StackStatus == some "CREATE_COMPLETE") then
      .error .stackUpdateFailed
    else
      match s.Outputs with
      | none => .error .jsTypeError
      | some [] => .error .jsTypeError
      | some (o :: _) =>
        let apiGatewayUrl := optString o
        .ok { classes := input.map fun inputItem =>
          { className := inputItem.name,
            methods := inputItem.methods.map fun method =>
              { name := method.name,
                type := method.type,
                cronString := method.cronString,
                functionUrl := getFunctionUrl apiGatewayUrl method.type inputItem.name method.name },
            functionUrl := apiGatewayUrl ++ "/" ++ inputItem.name } }

/-- The remote environment a deploy invocation runs against: whether the
bucket already exists, whether ambient credentials are configured, the
storage version generator and the reported put ids, the initial storage
state, the describe result the convergence probe sees, the outcomes of the
three bounded waits, and the describe result of the final re-fetch. -/
structure AwsWorld where
  bucketExists : Bool
  credentialsPresent : Bool
  versionGen : Nat → String
  putReported : Nat → String
  s3 : S3State
  describeProbe : Except CfError DescribeStacksOutput
  waitCreateResult : Except CfError Unit
  waitDeleteResult : Except CfError Unit
  waitUpdateResult : Except CfError Unit
  describeFinal : Except CfError DescribeStacksOutput

/-- `SelfHostedAwsAdapter.deploy`: probe the bucket, check credentials,
create and version the bucket if absent, run the per-unit loop, build the
template, converge the stack, re-fetch its state and resolve the endpoint
URLs. The first component collects every remote call issued. -/
def deploy (world : AwsWorld) (input : List GenezioCloudInput)
    (projectConfiguration : ProjectConfiguration) :
    List RemoteEvent × Except DeployError GenezioCloudOutput :=
  let bucketName := "bucket-" ++ projectConfiguration.region ++ "-" ++ projectConfiguration.name
  let stackName := "genezio-" ++ projectConfiguration.name
  let events0 := [RemoteEvent.headBucket bucketName]
  if !world.credentialsPresent then (events0, .error .awsCredentialsNotFound)
  else
    let events1 := if world.bucketExists then events0
      else events0 ++ [.createBucket bucketName, .putBucketVersioning bucketName]
    let apiGatewayResourceName := "ApiGateway" ++ alphanumericString projectConfiguration.name
    let r := processItems projectConfiguration bucketName apiGatewayResourceName
      world.versionGen world.putReported input (⟨mkBuilder apiGatewayResourceName, world.s3, events1⟩)
    match r.2 with
    | some e => (r.1.events, .error e)
    | none =>
      let templateResult := build r.1.builder
      let c := updateStack stackName world.describeProbe
        world.waitCreateResult world.waitDeleteResult world.waitUpdateResult
      let events2 := r.1.events ++ c.1
      match c.2 with
      | some e => (events2, .error e)
      | none =>
        let events3 := events2 ++ [.describeStacks stackName]
        match world.describeFinal with
        | .error e => (events3, .error (.remote e.message))
        | .ok stackDetails =>
          let _ := templateResult
          (events3, finalizeDeploy stackDetails input)

/-! ## The deployClasses driver (commands/deploy.ts)

The driver bundles every class before the adapter runs; selecting a bundler
dispatches on the class language and an unrecognised language is a fatal
error raised during this local phase, before any remote call. -/

/-- The languages the bundler selection switch accepts. -/
def bundlerSupports (language : String) : Bool :=
  language == ".ts" || language == ".js" || language == ".dart"

/-- The language of the first class the bundler selection rejects. -/
def firstUnsupportedLanguage (classes : List ClassConfiguration) : Option String :=
  (classes.find? fun c => !bundlerSupports c.language).map fun c => c.language

/-- The cloud input produced for one bundled class. -/
def classToCloudInput (element : ClassConfiguration) : GenezioCloudInput :=
  { name := element.name,
    archivePath := "genezioDeploy.zip",
    filePath := element.path,
    methods := element.methods }

/-- `deployClasses` restricted to the self-hosted reconciliation variant
(the managed-SaaS code path is an external collaborator): reject an empty
project, bundle every class (rejecting unknown languages locally), then run
the adapter. -/
def deployClasses (world : AwsWorld) (configuration : ProjectConfiguration) :
    List RemoteEvent × Except DeployError GenezioCloudOutput :=
  if configuration.classes.isEmpty then ([], .error .noClassesFound)
  else
    match firstUnsupportedLanguage configuration.classes with
    | some language => ([], .error (.unsupportedLanguage language))
    | none => deploy world (configuration.classes.map classToCloudInput) configuration

/-! ## Template extraction helpers -/

/-- The `Type` string of a resource. -/
def resourceType (v : CfValue) : Option String :=
  (getField v "Type").bind asString

/-- The `RouteKey` of a route resource. -/
def routeKeyOf (v : CfValue) : Option String :=
  (getField v "Properties").bind fun p => (getField p "RouteKey").bind asString

/-- The route key contributed by one template entry: the `RouteKey` when the
entry is a route resource, nothing otherwise. -/
def routeEntryKey (nv : String × CfValue) : Option String :=
  if resourceType nv.2 = some "AWS::ApiGatewayV2::Route" then routeKeyOf nv.2 else none

/-- All route keys of the route resources of a template, in template order. -/
def templateRouteKeys (t : StackTemplate) : List String :=
  t.resources.filterMap routeEntryKey

/-- The integration a route resource is bound to: the resource name inside
the `Ref` of its `Target` value `Fn::Join [sep, ["integrations", Ref]]`. -/
def routeIntegrationOf (v : CfValue) : Option String :=
  (getField v "Properties").bind fun p =>
    (getField p "Target").bind fun target =>
      match target with
      | .obj [("Fn::Join", .arr [.str _,
          .arr [.str "integrations", .obj [("Ref", .str integrationName)]]])] =>
        some integrationName
      | _ => none

/-- The binding contributed by one template entry: the pair of `RouteKey`
and bound integration name when the entry is a route resource. -/
def routeEntryBinding (nv : String × CfValue) : Option (String × String) :=
  if resourceType nv.2 = some "AWS::ApiGatewayV2::Route" then
    match routeKeyOf nv.2, routeIntegrationOf nv.2 with
    | some routeKey, some integrationName => some (routeKey, integrationName)
    | _, _ => none
  else none

/-- Every (route key, bound integration) pair of a template's route
resources, in template order. -/
def templateRouteBindings (t : StackTemplate) : List (String × String) :=
  t.resources.filterMap routeEntryBinding

/-- The `S3ObjectVersion` of the code reference of a function resource
value. -/
def codeVersionOf (v : CfValue) : Option String :=
  (getField v "Properties").bind fun p =>
    (getField p "Code").bind fun c =>
      (getField c "S3ObjectVersion").bind asString

/-- The `S3ObjectVersion` pinned into the code reference of a named
function resource. -/
def s3ObjectVersionOf (t : StackTemplate) (resourceName : String) : Option String :=
  (lookupField t.resources resourceName).bind codeVersionOf

/-- The `DependsOn` list of a named resource. -/
def dependsOnOf (t : StackTemplate) (resourceName : String) : Option (List String) :=
  (lookupField t.resources resourceName).bind fun v =>
    (getField v "DependsOn").bind fun d =>
      match d with
      | .arr xs => asStrings xs
      | _ => none

/-! ## Derived shapes of the synthesis loop

These definitions restate, per unit, exactly which resources one loop
iteration emits; the characterisation lemmas below prove the loop equal to
them. -/

/-- The methods the route loop of one unit iterates over: the methods of the
class configuration found by the unit's file path. -/
def classMethodsOf (projectConfiguration : ProjectConfiguration)
    (inputItem : GenezioCloudInput) : List Method :=
  match findClassConfiguration projectConfiguration inputItem.filePath with
  | some c => c.methods
  | none => []

/-- The resource ids one successful loop iteration records, in emission
order. -/
def itemResourceIds (projectConfiguration : ProjectConfiguration)
    (inputItem : GenezioCloudInput) : List String :=
  let a := alphanumericString inputItem.name
  ["LambdaInvokePermission" ++ a] ++
    ((classMethodsOf projectConfiguration inputItem).filter fun m => m.type == "http").map
      (fun m => "Route" ++ a ++ m.name) ++
    ["Route" ++ a, "Integration" ++ a, "LambdaFunction" ++ a, "Role" ++ a]

/-- The resources one successful loop iteration adds, where `n` is the index
the storage layer assigns to the iteration's upload. -/
def itemResourceChunk (projectConfiguration : ProjectConfiguration)
    (bucketName apiGatewayResourceName : String) (versionGen : Nat → String)
    (n : Nat) (inputItem : GenezioCloudInput) : List (String × CfValue) :=
  let a := alphanumericString inputItem.name
  match findClassConfiguration projectConfiguration inputItem.filePath with
  | none => []
  | some cls =>
    match getFunctionRuntime cls.language with
    | .error _ => []
    | .ok runtime =>
      [("LambdaInvokePermission" ++ a,
        invokePermissionResource apiGatewayResourceName ("LambdaFunction" ++ a))] ++
      (cls.methods.filter fun m => m.type == "http").map
        (fun m => ("Route" ++ a ++ m.name,
          routeResource apiGatewayResourceName
            ("ANY /" ++ inputItem.name ++ "/" ++ m.name) ("Integration" ++ a))) ++
      [("Route" ++ a,
        routeResource apiGatewayResourceName ("ANY /" ++ inputItem.name) ("Integration" ++ a)),
       ("Integration" ++ a,
        integrationResource apiGatewayResourceName ("LambdaFunction" ++ a)),
       ("LambdaFunction" ++ a,
        lambdaFunctionResource ("LambdaFunction" ++ a) runtime ("Role" ++ a)
          bucketName (deployBucketKey projectConfiguration inputItem)
          (some (versionGen n))),
       ("Role" ++ a, roleResource)]

/-- The resources the whole loop adds, starting at upload index `n`. -/
def chunksFrom (projectConfiguration : ProjectConfiguration)
    (bucketName apiGatewayResourceName : String) (versionGen : Nat → String) :
    Nat → List GenezioCloudInput → List (String × CfValue)
  | _, [] => []
  | n, inputItem :: rest =>
    itemResourceChunk projectConfiguration bucketName apiGatewayResourceName versionGen n inputItem ++
      chunksFrom projectConfiguration bucketName apiGatewayResourceName versionGen (n + 1) rest

/-- Every id the synthesized template binds: the gateway, the per-unit
resources and the two terminal resources. -/
def deployTemplateIds (projectConfiguration : ProjectConfiguration)
    (input : List GenezioCloudInput) : List String :=
  ("ApiGateway" ++ alphanumericString projectConfiguration.name) ::
    (input.flatMap (itemResourceIds projectConfiguration) ++ ["ApiStage", "ApiDeployment"])

/-- Whether a unit has a class configuration whose language the runtime
table accepts; the loop iteration of such a unit cannot fail. -/
def classRuntimeOk (projectConfiguration : ProjectConfiguration)
    (inputItem : GenezioCloudInput) : Bool :=
  match findClassConfiguration projectConfiguration inputItem.filePath with
  | none => false
  | some cls =>
    match getFunctionRuntime cls.language with
    | .ok _ => true
    | .error _ => false

/-- The route keys one unit contributes: a dedicated key per http-typed
method and the catch-all key. -/
def itemRouteKeys (projectConfiguration : ProjectConfiguration)
    (inputItem : GenezioCloudInput) : List String :=
  ((classMethodsOf projectConfiguration inputItem).filter fun m => m.type == "http").map
    (fun m => "ANY /" ++ inputItem.name ++ "/" ++ m.name) ++
  ["ANY /" ++ inputItem.name]

/-- The route-to-integration bindings one unit contributes: every dedicated
route of an http-typed method and the catch-all route are bound to the same
integration, the unit's own. -/
def itemRouteBindings (projectConfiguration : ProjectConfiguration)
    (inputItem : GenezioCloudInput) : List (String × String) :=
  ((classMethodsOf projectConfiguration inputItem).filter fun m => m.type == "http").map
    (fun m => ("ANY /" ++ inputItem.name ++ "/" ++ m.name,
      "Integration" ++ alphanumericString inputItem.name)) ++
  [("ANY /" ++ inputItem.name, "Integration" ++ alphanumericString inputItem.name)]

/-- A name free of slashes, so route keys decompose unambiguously. -/
def noSlash (s : String) : Bool :=
  s.data.all fun c => c ≠ '/'

/-! ## Statements taken from the specification, for comparison -/

/-- Modelled from the spec: the convergence state-machine table. Absent
issues a create awaiting CreateComplete; RollbackComplete issues a delete
awaiting DeleteComplete then a create awaiting CreateComplete; any other
existing status issues an update awaiting UpdateComplete. -/
def specConvergenceRow (stackName : String) (res : ExistsResult) : List RemoteEvent :=
  if res.stackExists = false then
    [.createStack stackName, .awaitCreateComplete stackName]
  else if res.status = some "ROLLBACK_COMPLETE" then
    [.deleteStack stackName, .awaitDeleteComplete stackName,
     .createStack stackName, .awaitCreateComplete stackName]
  else
    [.updateStackCmd stackName, .awaitUpdateComplete stackName]

/-- Whether a final describe result reports a healthy stack: a present,
non-empty stack list whose first status is exactly CREATE_COMPLETE or
UPDATE_COMPLETE. -/
def finalStackStatusOk : Except CfError DescribeStacksOutput → Bool
  | .ok d =>
    match d.Stacks with
    | some (s :: _) =>
      s.StackStatus == some "CREATE_COMPLETE" || s.StackStatus == some "UPDATE_COMPLETE"
    | _ => false
  | .error _ => false

/-- Whether an event is a stack mutation (create, delete or update). -/
def isStackMutation : RemoteEvent → Bool
  | .createStack _ => true
  | .deleteStack _ => true
  | .updateStackCmd _ => true
  | _ => false

/-- The template a deploy invocation synthesizes before convergence, as a
function of the remote world, the input units, the project and the remote
calls already issued (`deploy` instantiates `ev0` with its bucket events;
the builder does not depend on it). -/
def synthesizedTemplate (world : AwsWorld) (input : List GenezioCloudInput)
    (projectConfiguration : ProjectConfiguration) (ev0 : List RemoteEvent) : StackTemplate :=
  build (processItems projectConfiguration
    ("bucket-" ++ projectConfiguration.region ++ "-" ++ projectConfiguration.name)
    ("ApiGateway" ++ alphanumericString projectConfiguration.name)
    world.versionGen world.putReported input
    ⟨mkBuilder ("ApiGateway" ++ alphanumericString projectConfiguration.name),
     world.s3, ev0⟩).1.builder

/-! ## Concrete scenarios -/

/-- Methods of the end-to-end scenario: one http method, one rpc method. -/
def shopMethods : List Method :=
  [{ name := "invoice", type := "http", cronString := none },
   { name := "list", type := "jsonrpc", cronString := none }]

/-- The Orders class of the end-to-end scenario. -/
def shopClass : ClassConfiguration :=
  { name := "Orders", path := "./orders.ts", language := ".ts", methods := shopMethods }

/-- The shop project of the end-to-end scenario. -/
def shopProject : ProjectConfiguration :=
  { name := "shop", region := "us-east-1", cloudProvider := "selfHostedAws",
    classes := [shopClass] }

/-- The cloud inputs the driver derives for the shop project. -/
def shopInput : List GenezioCloudInput :=
  shopProject.classes.map classToCloudInput

/-- A remote world in which the stack probe reports stack-not-found (the
Absent state), every bounded wait succeeds, and the final describe reports
CREATE_COMPLETE with base URL `https://abc123.example/prod`. -/
def shopWorld : AwsWorld :=
  { bucketExists := false,
    credentialsPresent := true,
    versionGen := fun n => "v" ++ toString n,
    putReported := fun n => "put" ++ toString n,
    s3 := { putCount := 0, objects := [] },
    describeProbe := .error { message := notFoundMessage "genezio-shop" },
    waitCreateResult := .ok (),
    waitDeleteResult := .ok (),
    waitUpdateResult := .ok (),
    describeFinal := .ok
      { Stacks := some [{ StackStatus := some "CREATE_COMPLETE",
                          Outputs := some [some "https://abc123.example/prod"] }] } }

/-- The deployment result the end-to-end scenario must produce. -/
def shopExpectedOutput : GenezioCloudOutput :=
  { classes := [
    { className := "Orders",
      methods := [
        { name := "invoice", type := "http", cronString := none,
          functionUrl := "https://abc123.example/prod/Orders/invoice" },
        { name := "list", type := "jsonrpc", cronString := none,
          functionUrl := "https://abc123.example/prod/Orders" }],
      functionUrl := "https://abc123.example/prod/Orders" }] }

/-- A final describe result reporting a stack stuck in ROLLBACK_COMPLETE. -/
def rollbackFinalDescribe : DescribeStacksOutput :=
  { Stacks := some [{ StackStatus := some "ROLLBACK_COMPLETE", Outputs := none }] }

/-- A project with a class in a language outside the runtime table. -/
def pythonProject : ProjectConfiguration :=
  { name := "shop", region := "us-east-1", cloudProvider := "selfHostedAws",
    classes := [{ name := "Orders", path := "./orders.py", language := ".py",
                  methods := shopMethods }] }

/-- Whether the language to runtime table accepts a language. -/
def runtimeTableHasLanguage (language : String) : Bool :=
  match getFunctionRuntime language with
  | .ok _ => true
  | .error _ => false

/-- Sequential insertion of a list of resources, the shape the per-unit
loop reduces to. -/
def addResources (b : GenezioCloudFormationBuilder) (l : List (String × CfValue)) :
    GenezioCloudFormationBuilder :=
  l.foldl (fun acc p => addResource acc p.1 p.2) b

/-! ## Association list and builder lemmas -/

theorem setField_of_not_mem (fields : List (String × CfValue)) (k : String) (v : CfValue)
    (h : k ∉ fields.map Prod.fst) : setField fields k v = fields ++ [(k, v)] := by
  induction fields with
  | nil => rfl
  | cons p rest ih =>
    simp only [List.map_cons, List.mem_cons] at h
    push_neg at h
    simp [setField, Ne.symm h.1, ih h.2]

theorem lookupField_setField_self (fields : List (String × CfValue)) (k : String) (v : CfValue) :
    lookupField (setField fields k v) k = some v := by
  induction fields with
  | nil => simp [setField, lookupField]
  | cons p rest ih =>
    by_cases h : p.1 = k
    · simp [setField, lookupField, h]
    · simp [setField, lookupField, h, ih]

theorem lookupField_append_right (l₁ l₂ : List (String × CfValue)) (k : String)
    (h : k ∉ l₁.map Prod.fst) : lookupField (l₁ ++ l₂) k = lookupField l₂ k := by
  induction l₁ with
  | nil => rfl
  | cons p rest ih =>
    simp only [List.map_cons, List.mem_cons] at h
    push_neg at h
    simp [lookupField, Ne.symm h.1, ih h.2]

theorem asStrings_map_str (l : List String) : asStrings (l.map CfValue.str) = some l := by
  induction l with
  | nil => rfl
  | cons s rest ih => simp [asStrings, asString, ih]

theorem lookupAssoc_setAssoc_self (l : List ((String × String) × String))
    (k : String × String) (v : String) : lookupAssoc (setAssoc l k v) k = some v := by
  induction l with
  | nil => simp [setAssoc, lookupAssoc]
  | cons p rest ih =>
    by_cases h : p.1 = k
    · simp [setAssoc, lookupAssoc, h]
    · simp [setAssoc, lookupAssoc, h, ih]

theorem addResources_apiGatewayResourceName (l : List (String × CfValue))
    (b : GenezioCloudFormationBuilder) :
    (addResources b l).apiGatewayResourceName = b.apiGatewayResourceName := by
  induction l generalizing b with
  | nil => rfl
  | cons p rest ih =>
    simp [addResources, List.foldl_cons] at ih ⊢
    rw [ih]
    rfl

theorem addResources_resourceIds (l : List (String × CfValue))
    (b : GenezioCloudFormationBuilder) :
    (addResources b l).resourceIds = b.resourceIds ++ l.map Prod.fst := by
  induction l generalizing b with
  | nil => simp [addResources]
  | cons p rest ih =>
    simp [addResources, List.foldl_cons] at ih ⊢
    rw [ih]
    simp [addResource]

/-- C6. When the stack probe's describe call fails with the stack-not-found
condition, or returns an empty stack list, the probe returns the Absent
state rather than an error; every describe error with any other message is
propagated unchanged, so stack-not-found is the only remote error class the
probe recovers from. -/
theorem stack_not_found_maps_to_absent :
    ∀ (stackName : String) (e : CfError),
      checkIfStackExists stackName (.error { message := notFoundMessage stackName }) =
        .ok { stackExists := false, status := none } ∧
      checkIfStackExists stackName (.ok { Stacks := some [] }) =
        .ok { stackExists := false, status := none } ∧
      (e.message ≠ notFoundMessage stackName →
        checkIfStackExists stackName (.error e) = .error e) := by
  intro stackName e
  refine ⟨by simp [checkIfStackExists], rfl, fun h => by simp [checkIfStackExists, h]⟩

/-- Witness for C6 at a concrete stack name and a concrete unrelated
error. -/
theorem stack_not_found_maps_to_absent_witness :
    ({ message := "AccessDenied" : CfError }).message ≠ notFoundMessage "genezio-shop" ∧
    checkIfStackExists "genezio-shop" (.error { message := "AccessDenied" }) =
      .error { message := "AccessDenied" } :=
  ⟨by decide, (stack_not_found_maps_to_absent "genezio-shop"
      { message := "AccessDenied" }).2.2 (by decide)⟩

/-- C1. For every probed initial stack state, a converge invocation whose
bounded waits succeed issues exactly the mutations of the state-machine
row for that state: absent issues one create awaiting CreateComplete;
RollbackComplete issues one delete awaiting DeleteComplete then one create
awaiting CreateComplete, in that order; any other existing status issues
one update awaiting UpdateComplete, and on that path no create and no
delete is ever issued, whatever the wait outcomes. -/
theorem converge_issues_state_machine_row :
    ∀ (stackName : String) (res : ExistsResult) (wc wd wu : Except CfError Unit),
      (updateStackActions stackName res (.ok ()) (.ok ()) (.ok ())).1 =
        specConvergenceRow stackName res ∧
      (res.stackExists = true → res.status ≠ some "ROLLBACK_COMPLETE" →
        (updateStackActions stackName res wc wd wu).1.count (.createStack stackName) = 0 ∧
        (updateStackActions stackName res wc wd wu).1.count (.deleteStack stackName) = 0) ∧
      (∀ describeRes : Except CfError DescribeStacksOutput,
        checkIfStackExists stackName describeRes = .ok res →
        (updateStack stackName describeRes wc wd wu).1 =
          .describeStacks stackName :: (updateStackActions stackName res wc wd wu).1) := by
  intro stackName res wc wd wu
  refine ⟨?_, ?_, ?_⟩
  · rcases res with ⟨ex, st⟩
    cases ex
    · simp [updateStackActions, specConvergenceRow]
    · by_cases h : st = some "ROLLBACK_COMPLETE"
      · subst h
        simp [updateStackActions, specConvergenceRow]
      · simp [updateStackActions, specConvergenceRow, h]
  · rcases res with ⟨ex, st⟩
    intro hex hst
    simp only at hex
    subst hex
    simp only at hst
    simp [updateStackActions, hst, List.count_cons]
  · intro describeRes hprobe
    unfold updateStack
    rw [hprobe]

/-- Witness for C1 at an existing stack in UPDATE_COMPLETE state, probed
through a describe result reporting that status. -/
theorem converge_issues_state_machine_row_witness :
    (updateStackActions "genezio-shop" { stackExists := true, status := some "UPDATE_COMPLETE" }
        (.ok ()) (.ok ()) (.ok ())).1 =
      specConvergenceRow "genezio-shop" { stackExists := true, status := some "UPDATE_COMPLETE" } ∧
    (updateStackActions "genezio-shop" { stackExists := true, status := some "UPDATE_COMPLETE" }
        (.ok ()) (.ok ()) (.ok ())).1.count (.createStack "genezio-shop") = 0 ∧
    (updateStackActions "genezio-shop" { stackExists := true, status := some "UPDATE_COMPLETE" }
        (.ok ()) (.ok ()) (.ok ())).1.count (.deleteStack "genezio-shop") = 0 ∧
    (updateStack "genezio-shop"
        (.ok { Stacks := some [{ StackStatus := some "UPDATE_COMPLETE", Outputs := none }] })
        (.ok ()) (.ok ()) (.ok ())).1 =
      .describeStacks "genezio-shop" ::
        (updateStackActions "genezio-shop"
          { stackExists := true, status := some "UPDATE_COMPLETE" }
          (.ok ()) (.ok ()) (.ok ())).1 :=
  ⟨(converge_issues_state_machine_row "genezio-shop"
      { stackExists := true, status := some "UPDATE_COMPLETE" } (.ok ()) (.ok ()) (.ok ())).1,
   ((converge_issues_state_machine_row "genezio-shop"
      { stackExists := true, status := some "UPDATE_COMPLETE" } (.ok ()) (.ok ()) (.ok ())).2.1
     rfl (by decide)).1,
   ((converge_issues_state_machine_row "genezio-shop"
      { stackExists := true, status := some "UPDATE_COMPLETE" } (.ok ()) (.ok ()) (.ok ())).2.1
     rfl (by decide)).2,
   (converge_issues_state_machine_row "genezio-shop"
      { stackExists := true, status := some "UPDATE_COMPLETE" } (.ok ()) (.ok ()) (.ok ())).2.2
     (.ok { Stacks := some [{ StackStatus := some "UPDATE_COMPLETE", Outputs := none }] })
     rfl⟩

/-- C8. Whatever sequence of resources is added to the template builder,
the built template's deployment resource depends on every added resource
id, in emission order, followed by the stage id. -/
theorem deployment_depends_on_all_resources :
    ∀ (apiGatewayResourceName : String) (adds : List (String × CfValue)),
      dependsOnOf (build (addResources (mkBuilder apiGatewayResourceName) adds))
          "ApiDeployment" =
        some (adds.map Prod.fst ++ ["ApiStage"]) := by
  intro apiGatewayResourceName adds
  unfold dependsOnOf build
  rw [lookupField_setField_self]
  have hids : (addResources (mkBuilder apiGatewayResourceName) adds).resourceIds =
      adds.map Prod.fst := by
    rw [addResources_resourceIds]
    simp [mkBuilder]
  have hapi : (addResources (mkBuilder apiGatewayResourceName) adds).apiGatewayResourceName =
      apiGatewayResourceName := by
    rw [addResources_apiGatewayResourceName]
    rfl
  rw [hids, hapi]
  have h1 : getField (apiDeploymentResource apiGatewayResourceName (adds.map Prod.fst))
      "DependsOn" = some (.arr ((adds.map Prod.fst ++ ["ApiStage"]).map CfValue.str)) := rfl
  show (getField (apiDeploymentResource apiGatewayResourceName (adds.map Prod.fst))
      "DependsOn").bind
      (fun d => match d with | CfValue.arr xs => asStrings xs | _ => none) =
    some (adds.map Prod.fst ++ ["ApiStage"])
  rw [h1]
  exact asStrings_map_str _

theorem finalizeDeploy_ok_status (d : DescribeStacksOutput) (input : List GenezioCloudInput)
    (out : GenezioCloudOutput) (h : finalizeDeploy d input = .ok out) :
    finalStackStatusOk (.ok d) = true := by
  rcases d with ⟨stackList⟩
  rcases stackList with _ | ⟨_ | ⟨s, rest⟩⟩
  · simp [finalizeDeploy] at h
  · simp [finalizeDeploy] at h
  · cases hb : (s.StackStatus == some "UPDATE_COMPLETE" ||
        s.StackStatus == some "CREATE_COMPLETE") with
    | false => simp [finalizeDeploy, hb] at h
    | true =>
      simp only [finalStackStatusOk]
      rw [Bool.or_comm]
      exact hb

/-- C7. After convergence, deploy re-fetches the stack state and returns a
success result only if the observed status is exactly CREATE_COMPLETE or
UPDATE_COMPLETE; for every other observed status, or a missing or empty
stack description, the final phase raises the fatal stack-update-failed
error, so deploy never returns a success result for a degraded stack. -/
theorem degraded_stack_never_success :
    (∀ (world : AwsWorld) (input : List GenezioCloudInput)
        (projectConfiguration : ProjectConfiguration) (out : GenezioCloudOutput),
      (deploy world input projectConfiguration).2 = .ok out →
      finalStackStatusOk world.describeFinal = true) ∧
    (∀ (d : DescribeStacksOutput) (input : List GenezioCloudInput),
      finalStackStatusOk (.ok d) = false →
      finalizeDeploy d input = .error .stackUpdateFailed) := by
  constructor
  · intro world input projectConfiguration out h
    simp only [deploy] at h
    split at h
    · simp at h
    · split at h
      · simp at h
      · split at h
        · simp at h
        · split at h
          · simp at h
          · rename_i heq
            simp only at h
            rw [heq]
            exact finalizeDeploy_ok_status _ _ _ h
  · intro d input h
    rcases d with ⟨stackList⟩
    rcases stackList with _ | ⟨_ | ⟨s, rest⟩⟩
    · rfl
    · rfl
    · simp only [finalStackStatusOk] at h
      have hb : (s.StackStatus == some "UPDATE_COMPLETE" ||
          s.StackStatus == some "CREATE_COMPLETE") = false := by
        rw [Bool.or_comm]
        exact h
      simp [finalizeDeploy, hb]

/-- Witness for C7: the healthy shop world satisfies the success direction,
and a final describe stuck in ROLLBACK_COMPLETE is rejected. -/
theorem degraded_stack_never_success_witness :
    finalStackStatusOk shopWorld.describeFinal = true ∧
    finalizeDeploy rollbackFinalDescribe shopInput = .error .stackUpdateFailed :=
  ⟨degraded_stack_never_success.1 shopWorld shopInput shopProject shopExpectedOutput (by rfl),
   degraded_stack_never_success.2 rollbackFinalDescribe shopInput (by rfl)⟩

/-- C5. The end-to-end scenario: the shop project with the Orders unit, a
probe result of Absent and a successful create and describe cycle whose
output base URL is `https://abc123.example/prod` deploys to exactly the
result whose Orders base URL is `https://abc123.example/prod/Orders`,
whose invoice URL is `https://abc123.example/prod/Orders/invoice` and
whose list URL is the unit base URL. -/
theorem end_to_end_shop_deploy :
    (deployClasses shopWorld shopProject).2 = .ok shopExpectedOutput := by
  rfl

/-- The domains of the bundler switch and of the runtime table coincide. -/
theorem bundlerSupports_eq_runtimeTable (language : String) :
    bundlerSupports language = runtimeTableHasLanguage language := by
  unfold bundlerSupports runtimeTableHasLanguage getFunctionRuntime
  cases hjs : language == ".js" <;> cases hts : language == ".ts" <;>
    cases hdart : language == ".dart" <;> simp [hjs, hts, hdart]

theorem firstUnsupported_of_exists (classes : List ClassConfiguration)
    (hex : ∃ c ∈ classes, runtimeTableHasLanguage c.language = false) :
    ∃ language, firstUnsupportedLanguage classes = some language ∧
      runtimeTableHasLanguage language = false := by
  obtain ⟨c, hc, hlang⟩ := hex
  have hsome : (classes.find? fun c => !bundlerSupports c.language).isSome := by
    rw [List.find?_isSome]
    exact ⟨c, hc, by rw [bundlerSupports_eq_runtimeTable, hlang]; rfl⟩
  obtain ⟨c', hc'⟩ := Option.isSome_iff_exists.mp hsome
  have hp := List.find?_some hc'
  refine ⟨c'.language, ?_, ?_⟩
  · unfold firstUnsupportedLanguage
    rw [hc']
    rfl
  · rw [← bundlerSupports_eq_runtimeTable]
    simpa using hp

/-- C4. A project containing a class whose language is outside the fixed
language-to-runtime table fails with the fatal unsupported-language error
raised by the local bundling phase: the remote call trace is empty, so no
bucket call, upload or stack mutation is issued and no template is ever
sent to convergence. -/
theorem unsupported_language_fails_before_remote_calls :
    ∀ (world : AwsWorld) (configuration : ProjectConfiguration),
      (∃ c ∈ configuration.classes, runtimeTableHasLanguage c.language = false) →
      (deployClasses world configuration).1 = [] ∧
      (deployClasses world configuration).1.filter isStackMutation = [] ∧
      ∃ language, runtimeTableHasLanguage language = false ∧
        (deployClasses world configuration).2 = .error (.unsupportedLanguage language) := by
  intro world configuration hex
  obtain ⟨language, hfind, hlang⟩ := firstUnsupported_of_exists _ hex
  have hne : configuration.classes.isEmpty = false := by
    obtain ⟨c, hc, _⟩ := hex
    cases hcl : configuration.classes with
    | nil => rw [hcl] at hc; cases hc
    | cons _ _ => rfl
  refine ⟨?_, ?_, language, hlang, ?_⟩ <;>
    simp [deployClasses, hne, hfind]

/-- Witness for C4: a project whose class is written in ".py". -/
theorem unsupported_language_fails_before_remote_calls_witness :
    (∃ c ∈ pythonProject.classes, runtimeTableHasLanguage c.language = false) ∧
    (deployClasses shopWorld pythonProject).1 = [] ∧
    ∃ language, runtimeTableHasLanguage language = false ∧
      (deployClasses shopWorld pythonProject).2 = .error (.unsupportedLanguage language) :=
  ⟨by decide,
   (unsupported_language_fails_before_remote_calls shopWorld pythonProject (by decide)).1,
   (unsupported_language_fails_before_remote_calls shopWorld pythonProject (by decide)).2.2⟩

theorem getLatestObjectVersion_putObject (versionGen : Nat → String) (st : S3State)
    (bucket key : String) :
    getLatestObjectVersion (putObject versionGen st bucket key) bucket key =
      some (versionGen st.putCount) := by
  simp [getLatestObjectVersion, headObject, putObject, lookupAssoc_setAssoc_self]

theorem addResources_resources (l : List (String × CfValue))
    (b : GenezioCloudFormationBuilder) (hnd : (l.map Prod.fst).Nodup)
    (hfresh : ∀ k ∈ l.map Prod.fst, k ∉ b.resources.map Prod.fst) :
    (addResources b l).resources = b.resources ++ l := by
  induction l generalizing b with
  | nil => simp [addResources]
  | cons p rest ih =>
    simp only [List.map_cons, List.nodup_cons] at hnd
    have hp : p.1 ∉ b.resources.map Prod.fst := hfresh p.1 (by simp)
    have hstep : (addResource b p.1 p.2).resources = b.resources ++ [p] := by
      simp [addResource, setField_of_not_mem _ _ _ hp]
    have hrec : (addResources (addResource b p.1 p.2) rest).resources =
        (addResource b p.1 p.2).resources ++ rest := by
      refine ih _ hnd.2 ?_
      intro k hk
      rw [hstep]
      simp only [List.map_append, List.mem_append]
      push_neg
      refine ⟨hfresh k (by simp [hk]), ?_⟩
      simp only [List.map_cons, List.map_nil, List.mem_singleton]
      intro hkp
      exact hnd.1 (hkp ▸ hk)
    calc (addResources b (p :: rest)).resources
        = (addResources (addResource b p.1 p.2) rest).resources := by
          simp [addResources, List.foldl_cons]
      _ = b.resources ++ [p] ++ rest := by rw [hrec, hstep]
      _ = b.resources ++ (p :: rest) := by simp

theorem classRuntimeOk_elim (projectConfiguration : ProjectConfiguration)
    (inputItem : GenezioCloudInput)
    (hok : classRuntimeOk projectConfiguration inputItem = true) :
    ∃ cls runtime,
      findClassConfiguration projectConfiguration inputItem.filePath = some cls ∧
      getFunctionRuntime cls.language = .ok runtime := by
  unfold classRuntimeOk at hok
  cases hfind : findClassConfiguration projectConfiguration inputItem.filePath with
  | none => simp only [hfind] at hok; cases hok
  | some cls =>
    simp only [hfind] at hok
    cases hrt : getFunctionRuntime cls.language with
    | error e => simp only [hrt] at hok; cases hok
    | ok runtime => exact ⟨cls, runtime, rfl, hrt⟩

theorem itemResourceChunk_map_fst (projectConfiguration : ProjectConfiguration)
    (bucketName apiGatewayResourceName : String) (versionGen : Nat → String) (n : Nat)
    (inputItem : GenezioCloudInput)
    (hok : classRuntimeOk projectConfiguration inputItem = true) :
    (itemResourceChunk projectConfiguration bucketName apiGatewayResourceName versionGen
        n inputItem).map Prod.fst =
      itemResourceIds projectConfiguration inputItem := by
  obtain ⟨cls, runtime, hfind, hrt⟩ := classRuntimeOk_elim _ _ hok
  unfold itemResourceChunk itemResourceIds classMethodsOf
  simp only [hfind, hrt]
  simp [List.map_map, Function.comp]

theorem chunksFrom_map_fst (projectConfiguration : ProjectConfiguration)
    (bucketName apiGatewayResourceName : String) (versionGen : Nat → String) :
    ∀ (items : List GenezioCloudInput) (n : Nat),
      (∀ item ∈ items, classRuntimeOk projectConfiguration item = true) →
      (chunksFrom projectConfiguration bucketName apiGatewayResourceName versionGen
          n items).map Prod.fst =
        items.flatMap (itemResourceIds projectConfiguration) := by
  intro items
  induction items with
  | nil => intro n _; rfl
  | cons inputItem rest ih =>
    intro n hok
    simp only [chunksFrom, List.flatMap_cons, List.map_append]
    rw [itemResourceChunk_map_fst _ _ _ _ _ _ (hok inputItem (by simp)),
      ih (n + 1) (fun it hit => hok it (by simp [hit]))]

theorem processItem_spec (projectConfiguration : ProjectConfiguration)
    (bucketName apiGatewayResourceName : String) (versionGen putReported : Nat → String)
    (st : SynthState) (inputItem : GenezioCloudInput)
    (hok : classRuntimeOk projectConfiguration inputItem = true) :
    processItem projectConfiguration bucketName apiGatewayResourceName versionGen
        putReported st inputItem =
      (⟨addResources st.builder
          (itemResourceChunk projectConfiguration bucketName apiGatewayResourceName
            versionGen st.s3.putCount inputItem),
        putObject versionGen st.s3 bucketName
          (deployBucketKey projectConfiguration inputItem),
        st.events ++
          [.putObject bucketName (deployBucketKey projectConfiguration inputItem),
           .headObject bucketName (deployBucketKey projectConfiguration inputItem)]⟩,
       none) := by
  obtain ⟨cls, runtime, hfind, hrt⟩ := classRuntimeOk_elim _ _ hok
  unfold processItem itemResourceChunk
  simp only [hfind, hrt, uploadZipToS3]
  simp [addResources, List.foldl_map, getLatestObjectVersion_putObject,
    List.append_assoc]

theorem processItems_spec (projectConfiguration : ProjectConfiguration)
    (bucketName apiGatewayResourceName : String) (versionGen putReported : Nat → String) :
    ∀ (items : List GenezioCloudInput) (st : SynthState),
      (∀ item ∈ items, classRuntimeOk projectConfiguration item = true) →
      (items.flatMap (itemResourceIds projectConfiguration)).Nodup →
      (∀ id ∈ items.flatMap (itemResourceIds projectConfiguration),
        id ∉ st.builder.resources.map Prod.fst) →
      ∃ (s3Final : S3State) (eventsFinal : List RemoteEvent),
        processItems projectConfiguration bucketName apiGatewayResourceName versionGen
            putReported items st =
          (⟨{ resources := st.builder.resources ++
                chunksFrom projectConfiguration bucketName apiGatewayResourceName
                  versionGen st.s3.putCount items,
              resourceIds := st.builder.resourceIds ++
                items.flatMap (itemResourceIds projectConfiguration),
              apiGatewayResourceName := st.builder.apiGatewayResourceName },
            s3Final, eventsFinal⟩, none) := by
  intro items
  induction items with
  | nil =>
    intro st _ _ _
    refine ⟨st.s3, st.events, ?_⟩
    simp [processItems, chunksFrom]
  | cons inputItem rest ih =>
    intro st hok hnd hfresh
    have hokItem : classRuntimeOk projectConfiguration inputItem = true :=
      hok inputItem (by simp)
    have hokRest : ∀ item ∈ rest, classRuntimeOk projectConfiguration item = true :=
      fun it hit => hok it (by simp [hit])
    rw [List.flatMap_cons, List.nodup_append] at hnd
    obtain ⟨hndItem, hndRest, hdisj⟩ := hnd
    have hchunkfst : (itemResourceChunk projectConfiguration bucketName
        apiGatewayResourceName versionGen st.s3.putCount inputItem).map Prod.fst =
        itemResourceIds projectConfiguration inputItem :=
      itemResourceChunk_map_fst _ _ _ _ _ _ hokItem
    have hfreshItem : ∀ k ∈ itemResourceIds projectConfiguration inputItem,
        k ∉ st.builder.resources.map Prod.fst := by
      intro k hk
      exact hfresh k (by rw [List.flatMap_cons]; exact List.mem_append_left _ hk)
    set st1 : SynthState :=
      ⟨addResources st.builder
          (itemResourceChunk projectConfiguration bucketName apiGatewayResourceName
            versionGen st.s3.putCount inputItem),
        putObject versionGen st.s3 bucketName
          (deployBucketKey projectConfiguration inputItem),
        st.events ++
          [.putObject bucketName (deployBucketKey projectConfiguration inputItem),
           .headObject bucketName (deployBucketKey projectConfiguration inputItem)]⟩
      with hst1
    have hb1res : st1.builder.resources = st.builder.resources ++
        itemResourceChunk projectConfiguration bucketName apiGatewayResourceName
          versionGen st.s3.putCount inputItem := by
      rw [hst1]
      exact addResources_resources _ _ (hchunkfst ▸ hndItem) (by rw [hchunkfst]; exact hfreshItem)
    have hfreshRest : ∀ id ∈ rest.flatMap (itemResourceIds projectConfiguration),
        id ∉ st1.builder.resources.map Prod.fst := by
      intro id hid
      rw [hb1res]
      simp only [List.map_append, List.mem_append]
      push_neg
      constructor
      · exact hfresh id (by rw [List.flatMap_cons]; exact List.mem_append_right _ hid)
      · rw [hchunkfst]
        exact fun hmem => hdisj hmem hid
    obtain ⟨s3Final, eventsFinal, hrec⟩ := ih st1 hokRest hndRest hfreshRest
    refine ⟨s3Final, eventsFinal, ?_⟩
    have hstep := processItem_spec projectConfiguration bucketName apiGatewayResourceName
      versionGen putReported st inputItem hokItem
    simp only [processItems, hstep]
    rw [hrec]
    have hputCount : st1.s3.putCount = st.s3.putCount + 1 := by rw [hst1]; rfl
    have hids : st1.builder.resourceIds = st.builder.resourceIds ++
        itemResourceIds projectConfiguration inputItem := by
      rw [hst1]
      show (addResources st.builder _).resourceIds = _
      rw [addResources_resourceIds, hchunkfst]
    have hapi : st1.builder.apiGatewayResourceName = st.builder.apiGatewayResourceName := by
      rw [hst1]
      show (addResources st.builder _).apiGatewayResourceName = _
      rw [addResources_apiGatewayResourceName]
    rw [hb1res, hputCount, hids, hapi]
    simp [chunksFrom, List.flatMap_cons, List.append_assoc]

theorem template_resources_spec (world : AwsWorld) (input : List GenezioCloudInput)
    (projectConfiguration : ProjectConfiguration) (ev0 : List RemoteEvent)
    (hok : ∀ item ∈ input, classRuntimeOk projectConfiguration item = true)
    (hnd : (deployTemplateIds projectConfiguration input).Nodup) :
    (synthesizedTemplate world input projectConfiguration ev0).resources =
      ("ApiGateway" ++ alphanumericString projectConfiguration.name,
        apiGatewayResource ("ApiGateway" ++ alphanumericString projectConfiguration.name)) ::
      (chunksFrom projectConfiguration
          ("bucket-" ++ projectConfiguration.region ++ "-" ++ projectConfiguration.name)
          ("ApiGateway" ++ alphanumericString projectConfiguration.name)
          world.versionGen world.s3.putCount input ++
        [("ApiStage", apiStageResource
            ("ApiGateway" ++ alphanumericString projectConfiguration.name)),
         ("ApiDeployment", apiDeploymentResource
            ("ApiGateway" ++ alphanumericString projectConfiguration.name)
            (input.flatMap (itemResourceIds projectConfiguration)))]) := by
  unfold deployTemplateIds at hnd
  rw [List.nodup_cons] at hnd
  obtain ⟨hA, hnd2⟩ := hnd
  rw [List.nodup_append] at hnd2
  obtain ⟨hflat, _, hdisj2⟩ := hnd2
  simp only [List.mem_append, List.mem_cons, List.mem_singleton, not_or] at hA
  obtain ⟨hAflat, hAS, hAD, _⟩ := hA
  have hASflat : "ApiStage" ∉ input.flatMap (itemResourceIds projectConfiguration) := by
    intro h
    exact hdisj2 h (by simp)
  have hADflat : "ApiDeployment" ∉ input.flatMap (itemResourceIds projectConfiguration) := by
    intro h
    exact hdisj2 h (by simp)
  have hfresh : ∀ id ∈ input.flatMap (itemResourceIds projectConfiguration),
      id ∉ (mkBuilder ("ApiGateway" ++ alphanumericString
        projectConfiguration.name)).resources.map Prod.fst := by
    intro id hid
    simp only [mkBuilder, List.map_cons, List.map_nil, List.mem_singleton]
    intro hidA
    exact hAflat (hidA ▸ hid)
  obtain ⟨s3Final, eventsFinal, hrun⟩ := processItems_spec projectConfiguration
    ("bucket-" ++ projectConfiguration.region ++ "-" ++ projectConfiguration.name)
    ("ApiGateway" ++ alphanumericString projectConfiguration.name)
    world.versionGen world.putReported input
    ⟨mkBuilder ("ApiGateway" ++ alphanumericString projectConfiguration.name),
      world.s3, ev0⟩ hok hflat hfresh
  unfold synthesizedTemplate
  rw [hrun]
  simp only [build, mkBuilder]
  have hchunkKeys : (chunksFrom projectConfiguration
      ("bucket-" ++ projectConfiguration.region ++ "-" ++ projectConfiguration.name)
      ("ApiGateway" ++ alphanumericString projectConfiguration.name)
      world.versionGen world.s3.putCount input).map Prod.fst =
      input.flatMap (itemResourceIds projectConfiguration) :=
    chunksFrom_map_fst _ _ _ _ _ _ hok
  have h1 : "ApiStage" ∉
      ([("ApiGateway" ++ alphanumericString projectConfiguration.name,
          apiGatewayResource ("ApiGateway" ++ alphanumericString projectConfiguration.name))] ++
        chunksFrom projectConfiguration
          ("bucket-" ++ projectConfiguration.region ++ "-" ++ projectConfiguration.name)
          ("ApiGateway" ++ alphanumericString projectConfiguration.name)
          world.versionGen world.s3.putCount input).map Prod.fst := by
    simp only [List.map_append, List.mem_append, hchunkKeys,
      List.map_cons, List.map_nil, List.mem_singleton, not_or]
    exact ⟨fun h => hAS h.symm, hASflat⟩
  rw [setField_of_not_mem _ _ _ h1]
  have h2 : "ApiDeployment" ∉
      (([("ApiGateway" ++ alphanumericString projectConfiguration.name,
          apiGatewayResource ("ApiGateway" ++ alphanumericString projectConfiguration.name))] ++
        chunksFrom projectConfiguration
          ("bucket-" ++ projectConfiguration.region ++ "-" ++ projectConfiguration.name)
          ("ApiGateway" ++ alphanumericString projectConfiguration.name)
          world.versionGen world.s3.putCount input) ++
        [("ApiStage", apiStageResource
          ("ApiGateway" ++ alphanumericString projectConfiguration.name))]).map Prod.fst := by
    simp only [List.map_append, List.mem_append, hchunkKeys,
      List.map_cons, List.map_nil, List.mem_singleton, not_or]
    refine ⟨⟨fun h => hAD h.symm, hADflat⟩, by decide⟩
  rw [setField_of_not_mem _ _ _ h2]
  simp [List.append_assoc]

theorem codeVersionOf_lambda (lambdaFunctionResourceName runtime roleResourceName
    bucketName bucketKey v : String) :
    codeVersionOf (lambdaFunctionResource lambdaFunctionResourceName runtime
      roleResourceName bucketName bucketKey (some v)) = some v := rfl

theorem lookupField_append_left (l₁ l₂ : List (String × CfValue)) (k : String) (v : CfValue)
    (h : lookupField l₁ k = some v) : lookupField (l₁ ++ l₂) k = some v := by
  induction l₁ with
  | nil => cases h
  | cons p rest ih =>
    by_cases hp : p.1 = k
    · simp only [lookupField, hp, if_pos rfl] at h ⊢
      · exact h
    · simp only [lookupField, hp, if_neg hp] at h ⊢
      exact ih h

theorem lookupField_prefix_not_mem (l₁ : List (String × CfValue)) (k : String) (v : CfValue)
    (l₂ : List (String × CfValue)) (h : k ∉ l₁.map Prod.fst) :
    lookupField (l₁ ++ (k, v) :: l₂) k = some v := by
  rw [lookupField_append_right _ _ _ h]
  simp [lookupField]

theorem lookup_lambda_in_chunks (projectConfiguration : ProjectConfiguration)
    (bucketName apiGatewayResourceName : String) (versionGen : Nat → String) :
    ∀ (items : List GenezioCloudInput) (n : Nat) (i : Nat) (hi : i < items.length),
      (∀ item ∈ items, classRuntimeOk projectConfiguration item = true) →
      (items.flatMap (itemResourceIds projectConfiguration)).Nodup →
      ∃ v, lookupField
          (chunksFrom projectConfiguration bucketName apiGatewayResourceName versionGen n items)
          ("LambdaFunction" ++ alphanumericString (items.get ⟨i, hi⟩).name) = some v ∧
        codeVersionOf v = some (versionGen (n + i)) := by
  intro items
  induction items with
  | nil =>
    intro n i hi
    exact absurd hi (by simp)
  | cons inputItem rest ih =>
    intro n i hi hok hnd
    rw [List.flatMap_cons, List.nodup_append] at hnd
    obtain ⟨hndItem, hndRest, hdisj⟩ := hnd
    obtain ⟨cls, runtime, hfind, hrt⟩ :=
      classRuntimeOk_elim _ _ (hok inputItem (by simp))
    have hchunk : itemResourceChunk projectConfiguration bucketName apiGatewayResourceName
        versionGen n inputItem =
        [("LambdaInvokePermission" ++ alphanumericString inputItem.name,
          invokePermissionResource apiGatewayResourceName
            ("LambdaFunction" ++ alphanumericString inputItem.name))] ++
        (cls.methods.filter fun m => m.type == "http").map
          (fun m => ("Route" ++ alphanumericString inputItem.name ++ m.name,
            routeResource apiGatewayResourceName
              ("ANY /" ++ inputItem.name ++ "/" ++ m.name)
              ("Integration" ++ alphanumericString inputItem.name))) ++
        [("Route" ++ alphanumericString inputItem.name,
          routeResource apiGatewayResourceName ("ANY /" ++ inputItem.name)
            ("Integration" ++ alphanumericString inputItem.name)),
         ("Integration" ++ alphanumericString inputItem.name,
          integrationResource apiGatewayResourceName
            ("LambdaFunction" ++ alphanumericString inputItem.name)),
         ("LambdaFunction" ++ alphanumericString inputItem.name,
          lambdaFunctionResource ("LambdaFunction" ++ alphanumericString inputItem.name)
            runtime ("Role" ++ alphanumericString inputItem.name) bucketName
            (deployBucketKey projectConfiguration inputItem) (some (versionGen n))),
         ("Role" ++ alphanumericString inputItem.name, roleResource)] := by
      unfold itemResourceChunk
      simp only [hfind, hrt]
    have hidsItem : itemResourceIds projectConfiguration inputItem =
        ["LambdaInvokePermission" ++ alphanumericString inputItem.name] ++
        (cls.methods.filter fun m => m.type == "http").map
          (fun m => "Route" ++ alphanumericString inputItem.name ++ m.name) ++
        ["Route" ++ alphanumericString inputItem.name,
         "Integration" ++ alphanumericString inputItem.name,
         "LambdaFunction" ++ alphanumericString inputItem.name,
         "Role" ++ alphanumericString inputItem.name] := by
      unfold itemResourceIds classMethodsOf
      simp only [hfind]
    cases i with
    | zero =>
      have hlam : "LambdaFunction" ++ alphanumericString inputItem.name ∉
          (["LambdaInvokePermission" ++ alphanumericString inputItem.name] ++
            (cls.methods.filter fun m => m.type == "http").map
              (fun m => "Route" ++ alphanumericString inputItem.name ++ m.name) ++
            ["Route" ++ alphanumericString inputItem.name,
             "Integration" ++ alphanumericString inputItem.name]) := by
        intro hmem
        rw [hidsItem] at hndItem
        have hrearr :
            (["LambdaInvokePermission" ++ alphanumericString inputItem.name] ++
              (cls.methods.filter fun m => m.type == "http").map
                (fun m => "Route" ++ alphanumericString inputItem.name ++ m.name) ++
              ["Route" ++ alphanumericString inputItem.name,
               "Integration" ++ alphanumericString inputItem.name,
               "LambdaFunction" ++ alphanumericString inputItem.name,
               "Role" ++ alphanumericString inputItem.name]) =
            (["LambdaInvokePermission" ++ alphanumericString inputItem.name] ++
              (cls.methods.filter fun m => m.type == "http").map
                (fun m => "Route" ++ alphanumericString inputItem.name ++ m.name) ++
              ["Route" ++ alphanumericString inputItem.name,
               "Integration" ++ alphanumericString inputItem.name]) ++
            (("LambdaFunction" ++ alphanumericString inputItem.name) ::
              ["Role" ++ alphanumericString inputItem.name]) := by
          simp [List.append_assoc]
        rw [hrearr, List.nodup_append] at hndItem
        exact hndItem.2.2 hmem (by simp)
      refine ⟨lambdaFunctionResource ("LambdaFunction" ++ alphanumericString inputItem.name)
          runtime ("Role" ++ alphanumericString inputItem.name) bucketName
          (deployBucketKey projectConfiguration inputItem) (some (versionGen n)), ?_, ?_⟩
      · show lookupField (chunksFrom projectConfiguration bucketName apiGatewayResourceName
            versionGen n (inputItem :: rest))
            ("LambdaFunction" ++ alphanumericString inputItem.name) = _
        rw [chunksFrom, hchunk]
        have hshape :
            (([("LambdaInvokePermission" ++ alphanumericString inputItem.name,
                invokePermissionResource apiGatewayResourceName
                  ("LambdaFunction" ++ alphanumericString inputItem.name))] ++
              (cls.methods.filter fun m => m.type == "http").map
                (fun m => ("Route" ++ alphanumericString inputItem.name ++ m.name,
                  routeResource apiGatewayResourceName
                    ("ANY /" ++ inputItem.name ++ "/" ++ m.name)
                    ("Integration" ++ alphanumericString inputItem.name))) ++
              [("Route" ++ alphanumericString inputItem.name,
                routeResource apiGatewayResourceName ("ANY /" ++ inputItem.name)
                  ("Integration" ++ alphanumericString inputItem.name)),
               ("Integration" ++ alphanumericString inputItem.name,
                integrationResource apiGatewayResourceName
                  ("LambdaFunction" ++ alphanumericString inputItem.name)),
               ("LambdaFunction" ++ alphanumericString inputItem.name,
                lambdaFunctionResource
                  ("LambdaFunction" ++ alphanumericString inputItem.name)
                  runtime ("Role" ++ alphanumericString inputItem.name) bucketName
                  (deployBucketKey projectConfiguration inputItem) (some (versionGen n))),
               ("Role" ++ alphanumericString inputItem.name, roleResource)]) ++
              chunksFrom projectConfiguration bucketName apiGatewayResourceName versionGen
                (n + 1) rest) =
            ([("LambdaInvokePermission" ++ alphanumericString inputItem.name,
                invokePermissionResource apiGatewayResourceName
                  ("LambdaFunction" ++ alphanumericString inputItem.name))] ++
              (cls.methods.filter fun m => m.type == "http").map
                (fun m => ("Route" ++ alphanumericString inputItem.name ++ m.name,
                  routeResource apiGatewayResourceName
                    ("ANY /" ++ inputItem.name ++ "/" ++ m.name)
                    ("Integration" ++ alphanumericString inputItem.name))) ++
              [("Route" ++ alphanumericString inputItem.name,
                routeResource apiGatewayResourceName ("ANY /" ++ inputItem.name)
                  ("Integration" ++ alphanumericString inputItem.name)),
               ("Integration" ++ alphanumericString inputItem.name,
                integrationResource apiGatewayResourceName
                  ("LambdaFunction" ++ alphanumericString inputItem.name))]) ++
              (("LambdaFunction" ++ alphanumericString inputItem.name,
                lambdaFunctionResource
                  ("LambdaFunction" ++ alphanumericString inputItem.name)
                  runtime ("Role" ++ alphanumericString inputItem.name) bucketName
                  (deployBucketKey projectConfiguration inputItem) (some (versionGen n))) ::
               (("Role" ++ alphanumericString inputItem.name, roleResource) ::
                chunksFrom projectConfiguration bucketName apiGatewayResourceName versionGen
                  (n + 1) rest)) := by
          simp [List.append_assoc]
        rw [hshape]
        refine lookupField_prefix_not_mem _ _ _ _ ?_
        intro hmem
        refine hlam ?_
        simpa [List.map_map, Function.comp] using hmem
      · rw [Nat.add_zero]
        exact codeVersionOf_lambda _ _ _ _ _ _
    | succ i' =>
      have hi' : i' < rest.length := by simpa using hi
      have hget : (inputItem :: rest).get ⟨i' + 1, hi⟩ = rest.get ⟨i', hi'⟩ := rfl
      rw [hget]
      have hmemRest : "LambdaFunction" ++ alphanumericString (rest.get ⟨i', hi'⟩).name ∈
          rest.flatMap (itemResourceIds projectConfiguration) := by
        refine List.mem_flatMap.mpr ⟨rest.get ⟨i', hi'⟩, List.get_mem _ _ hi', ?_⟩
        unfold itemResourceIds
        simp
      obtain ⟨v, hv, hcode⟩ := ih (n + 1) i' hi'
        (fun it hit => hok it (by simp [hit])) hndRest
      refine ⟨v, ?_, ?_⟩
      · show lookupField (chunksFrom projectConfiguration bucketName apiGatewayResourceName
            versionGen n (inputItem :: rest)) _ = _
        rw [chunksFrom, lookupField_append_right, hv]
        rw [itemResourceChunk_map_fst _ _ _ _ _ _ (hok inputItem (by simp))]
        intro hmem
        exact hdisj hmem hmemRest
      · have harith : n + 1 + i' = n + (i' + 1) := by omega
        rw [hcode, harith]

theorem processItems_putReported_irrelevant (projectConfiguration : ProjectConfiguration)
    (bucketName apiGatewayResourceName : String) (versionGen : Nat → String) :
    ∀ (items : List GenezioCloudInput) (st : SynthState) (pr1 pr2 : Nat → String),
      processItems projectConfiguration bucketName apiGatewayResourceName versionGen
          pr1 items st =
        processItems projectConfiguration bucketName apiGatewayResourceName versionGen
          pr2 items st := by
  intro items
  induction items with
  | nil => intro st pr1 pr2; rfl
  | cons inputItem rest ih =>
    intro st pr1 pr2
    have hitem : processItem projectConfiguration bucketName apiGatewayResourceName
        versionGen pr1 st inputItem =
        processItem projectConfiguration bucketName apiGatewayResourceName
          versionGen pr2 st inputItem := by
      simp [processItem, uploadZipToS3]
    cases hres : processItem projectConfiguration bucketName apiGatewayResourceName
        versionGen pr2 st inputItem with
    | mk st' err =>
      cases err with
      | some e =>
        simp only [processItems, hitem, hres]
      | none =>
        simp only [processItems, hitem, hres]
        exact ih st' pr1 pr2

/-- C2. For every deployed unit, the version id pinned into the function
resource's code reference equals the storage-assigned version of that
unit's upload, which is exactly what the post-upload head-object
re-resolution returns; the synthesis result does not depend on the version
ids reported by the upload calls themselves. -/
theorem version_pinning_post_upload :
    ∀ (world : AwsWorld) (input : List GenezioCloudInput)
      (projectConfiguration : ProjectConfiguration) (ev0 : List RemoteEvent)
      (i : Nat) (hi : i < input.length),
      (∀ item ∈ input, classRuntimeOk projectConfiguration item = true) →
      (deployTemplateIds projectConfiguration input).Nodup →
      s3ObjectVersionOf (synthesizedTemplate world input projectConfiguration ev0)
          ("LambdaFunction" ++ alphanumericString (input.get ⟨i, hi⟩).name) =
        some (world.versionGen (world.s3.putCount + i)) ∧
      (∀ (st : S3State) (bucket key : String),
        getLatestObjectVersion (putObject world.versionGen st bucket key) bucket key =
          some (world.versionGen st.putCount)) ∧
      (∀ putReported2 : Nat → String,
        processItems projectConfiguration
            ("bucket-" ++ projectConfiguration.region ++ "-" ++ projectConfiguration.name)
            ("ApiGateway" ++ alphanumericString projectConfiguration.name)
            world.versionGen putReported2 input
            ⟨mkBuilder ("ApiGateway" ++ alphanumericString projectConfiguration.name),
              world.s3, ev0⟩ =
          processItems projectConfiguration
            ("bucket-" ++ projectConfiguration.region ++ "-" ++ projectConfiguration.name)
            ("ApiGateway" ++ alphanumericString projectConfiguration.name)
            world.versionGen world.putReported input
            ⟨mkBuilder ("ApiGateway" ++ alphanumericString projectConfiguration.name),
              world.s3, ev0⟩) := by
  intro world input projectConfiguration ev0 i hi hok hnd
  refine ⟨?_, fun st bucket key => getLatestObjectVersion_putObject _ _ _ _,
    fun pr2 => processItems_putReported_irrelevant _ _ _ _ _ _ _ _⟩
  have hnd0 := hnd
  unfold deployTemplateIds at hnd0
  rw [List.nodup_cons] at hnd0
  obtain ⟨hA, hnd2⟩ := hnd0
  rw [List.nodup_append] at hnd2
  obtain ⟨hflat, _, _⟩ := hnd2
  simp only [List.mem_append, not_or] at hA
  obtain ⟨hAflat, _⟩ := hA
  have hlamflat : "LambdaFunction" ++ alphanumericString (input.get ⟨i, hi⟩).name ∈
      input.flatMap (itemResourceIds projectConfiguration) := by
    refine List.mem_flatMap.mpr ⟨input.get ⟨i, hi⟩, List.get_mem _ _ hi, ?_⟩
    unfold itemResourceIds
    simp
  have hne : ("ApiGateway" ++ alphanumericString projectConfiguration.name) ≠
      "LambdaFunction" ++ alphanumericString (input.get ⟨i, hi⟩).name := by
    intro h
    exact hAflat (h ▸ hlamflat)
  unfold s3ObjectVersionOf
  rw [template_resources_spec world input projectConfiguration ev0 hok hnd]
  obtain ⟨v, hv, hcode⟩ := lookup_lambda_in_chunks projectConfiguration
    ("bucket-" ++ projectConfiguration.region ++ "-" ++ projectConfiguration.name)
    ("ApiGateway" ++ alphanumericString projectConfiguration.name)
    world.versionGen input world.s3.putCount i hi hok hflat
  have hstep : lookupField
      (("ApiGateway" ++ alphanumericString projectConfiguration.name,
        apiGatewayResource ("ApiGateway" ++ alphanumericString projectConfiguration.name)) ::
        (chunksFrom projectConfiguration
          ("bucket-" ++ projectConfiguration.region ++ "-" ++ projectConfiguration.name)
          ("ApiGateway" ++ alphanumericString projectConfiguration.name)
          world.versionGen world.s3.putCount input ++
          [("ApiStage", apiStageResource
              ("ApiGateway" ++ alphanumericString projectConfiguration.name)),
           ("ApiDeployment", apiDeploymentResource
              ("ApiGateway" ++ alphanumericString projectConfiguration.name)
              (input.flatMap (itemResourceIds projectConfiguration)))]))
      ("LambdaFunction" ++ alphanumericString (input.get ⟨i, hi⟩).name) = some v := by
    simp only [lookupField, if_neg hne]
    exact lookupField_append_left _ _ _ _ hv
  rw [hstep]
  exact hcode

/-- Witness for C2 at the shop scenario: the Orders function resource pins
the storage-assigned version of the first upload. -/
theorem version_pinning_post_upload_witness :
    (∀ item ∈ shopInput, classRuntimeOk shopProject item = true) ∧
    (deployTemplateIds shopProject shopInput).Nodup ∧
    s3ObjectVersionOf (synthesizedTemplate shopWorld shopInput shopProject [])
        ("LambdaFunction" ++ alphanumericString ((shopInput.get ⟨0, by decide⟩)).name) =
      some (shopWorld.versionGen (shopWorld.s3.putCount + 0)) :=
  ⟨by decide, by decide,
   (version_pinning_post_upload shopWorld shopInput shopProject [] 0 (by decide)
      (by decide) (by decide)).1⟩

/-! ## Route key decomposition -/

theorem string_data_append (s t : String) : (s ++ t).data = s.data ++ t.data := rfl

theorem string_data_inj {s t : String} (h : s.data = t.data) : s = t := by
  cases s
  cases t
  simp only [String.data] at h
  rw [h]

theorem noSlash_not_mem {s : String} (h : noSlash s = true) : '/' ∉ s.data := by
  intro hm
  unfold noSlash at h
  rw [List.all_eq_true] at h
  have hcontr := h '/' hm
  simp at hcontr

theorem append_slash_cancel : ∀ (as bs xs ys : List Char), '/' ∉ as → '/' ∉ bs →
    as ++ '/' :: xs = bs ++ '/' :: ys → as = bs ∧ xs = ys := by
  intro as
  induction as with
  | nil =>
    intro bs xs ys ha hb h
    cases bs with
    | nil => simpa using h
    | cons b bs' =>
      simp only [List.nil_append, List.cons_append] at h
      obtain ⟨h1, h2⟩ := List.cons.inj h
      exact absurd (by rw [← h1]; exact List.mem_cons_self _ _) hb
  | cons a as' ih =>
    intro bs xs ys ha hb h
    cases bs with
    | nil =>
      simp only [List.cons_append, List.nil_append] at h
      obtain ⟨h1, h2⟩ := List.cons.inj h
      exact absurd (by rw [h1]; exact List.mem_cons_self _ _) ha
    | cons b bs' =>
      simp only [List.cons_append] at h
      obtain ⟨h1, h2⟩ := List.cons.inj h
      have ha' : '/' ∉ as' := fun hm => ha (List.mem_cons_of_mem _ hm)
      have hb' : '/' ∉ bs' := fun hm => hb (List.mem_cons_of_mem _ hm)
      obtain ⟨hab, hxy⟩ := ih bs' xs ys ha' hb' h2
      exact ⟨by rw [h1, hab], hxy⟩

theorem dedicated_key_data (x y : String) : ("ANY /" ++ x ++ "/" ++ y).data =
    "ANY /".data ++ (x.data ++ '/' :: y.data) := by
  have hslash : "/".data = ['/'] := rfl
  simp [string_data_append, hslash, List.append_assoc]

theorem catchall_key_data (x : String) : ("ANY /" ++ x).data =
    "ANY /".data ++ x.data := string_data_append _ _

theorem routeKey_dedicated_inj {u m u' m' : String}
    (hu : noSlash u = true) (hu' : noSlash u' = true)
    (h : "ANY /" ++ u ++ "/" ++ m = "ANY /" ++ u' ++ "/" ++ m') : u = u' ∧ m = m' := by
  have hd := congrArg String.data h
  rw [dedicated_key_data, dedicated_key_data] at hd
  have hd2 := List.append_cancel_left hd
  obtain ⟨h1, h2⟩ :=
    append_slash_cancel _ _ _ _ (noSlash_not_mem hu) (noSlash_not_mem hu') hd2
  exact ⟨string_data_inj h1, string_data_inj h2⟩

theorem routeKey_dedicated_ne_catchall {u m u' : String} (hu' : noSlash u' = true) :
    "ANY /" ++ u ++ "/" ++ m ≠ "ANY /" ++ u' := by
  intro h
  have hd := congrArg String.data h
  rw [dedicated_key_data, catchall_key_data] at hd
  have hd2 := List.append_cancel_left hd
  exact noSlash_not_mem hu'
    (by rw [← hd2]; exact List.mem_append_right _ (List.mem_cons_self _ _))

/-! ## Route key extraction over the synthesized template -/

theorem routeEntryKey_route (name apiGatewayResourceName routeKey
    integrationResourceName : String) :
    routeEntryKey (name, routeResource apiGatewayResourceName routeKey
      integrationResourceName) = some routeKey := rfl

theorem routeEntryKey_permission (name apiGatewayResourceName
    lambdaFunctionResourceName : String) :
    routeEntryKey (name, invokePermissionResource apiGatewayResourceName
      lambdaFunctionResourceName) = none := rfl

theorem routeEntryKey_integration (name apiGatewayResourceName
    lambdaFunctionResourceName : String) :
    routeEntryKey (name, integrationResource apiGatewayResourceName
      lambdaFunctionResourceName) = none := rfl

theorem routeEntryKey_lambda (name lambdaFunctionResourceName runtime roleResourceName
    bucketName bucketKey : String) (version : Option String) :
    routeEntryKey (name, lambdaFunctionResource lambdaFunctionResourceName runtime
      roleResourceName bucketName bucketKey version) = none := by
  cases version <;> rfl

theorem routeEntryKey_role (name : String) :
    routeEntryKey (name, roleResource) = none := rfl

theorem routeEntryKey_apiGateway (name apiGatewayResourceName : String) :
    routeEntryKey (name, apiGatewayResource apiGatewayResourceName) = none := rfl

theorem routeEntryKey_stage (name apiGatewayResourceName : String) :
    routeEntryKey (name, apiStageResource apiGatewayResourceName) = none := rfl

theorem routeEntryKey_deployment (name apiGatewayResourceName : String)
    (resourceIds : List String) :
    routeEntryKey (name, apiDeploymentResource apiGatewayResourceName resourceIds) =
      none := rfl

theorem filterMap_routeEntries (apiGatewayResourceName integrationResourceName : String)
    (inputItem : GenezioCloudInput) :
    ∀ ms : List Method,
      (ms.map (fun m => ("Route" ++ alphanumericString inputItem.name ++ m.name,
        routeResource apiGatewayResourceName
          ("ANY /" ++ inputItem.name ++ "/" ++ m.name)
          integrationResourceName))).filterMap routeEntryKey =
      ms.map (fun m => "ANY /" ++ inputItem.name ++ "/" ++ m.name) := by
  intro ms
  induction ms with
  | nil => rfl
  | cons m rest ih =>
    simp only [List.map_cons, List.filterMap_cons, routeEntryKey_route]
    rw [ih]

theorem routeKeys_chunk (projectConfiguration : ProjectConfiguration)
    (bucketName apiGatewayResourceName : String) (versionGen : Nat → String) (n : Nat)
    (inputItem : GenezioCloudInput)
    (hok : classRuntimeOk projectConfiguration inputItem = true) :
    (itemResourceChunk projectConfiguration bucketName apiGatewayResourceName versionGen
        n inputItem).filterMap routeEntryKey =
      itemRouteKeys projectConfiguration inputItem := by
  obtain ⟨cls, runtime, hfind, hrt⟩ := classRuntimeOk_elim _ _ hok
  unfold itemResourceChunk itemRouteKeys classMethodsOf
  simp only [hfind, hrt]
  rw [List.filterMap_append, List.filterMap_append, filterMap_routeEntries]
  simp only [List.filterMap_cons, List.filterMap_nil, routeEntryKey_permission,
    routeEntryKey_route, routeEntryKey_integration, routeEntryKey_lambda,
    routeEntryKey_role]
  simp

theorem routeKeys_chunksFrom (projectConfiguration : ProjectConfiguration)
    (bucketName apiGatewayResourceName : String) (versionGen : Nat → String) :
    ∀ (items : List GenezioCloudInput) (n : Nat),
      (∀ item ∈ items, classRuntimeOk projectConfiguration item = true) →
      (chunksFrom projectConfiguration bucketName apiGatewayResourceName versionGen
          n items).filterMap routeEntryKey =
        items.flatMap (itemRouteKeys projectConfiguration) := by
  intro items
  induction items with
  | nil => intro n _; rfl
  | cons inputItem rest ih =>
    intro n hok
    simp only [chunksFrom, List.flatMap_cons, List.filterMap_append]
    rw [routeKeys_chunk _ _ _ _ _ _ (hok inputItem (by simp)),
      ih (n + 1) (fun it hit => hok it (by simp [hit]))]

theorem templateRouteKeys_spec (world : AwsWorld) (input : List GenezioCloudInput)
    (projectConfiguration : ProjectConfiguration) (ev0 : List RemoteEvent)
    (hok : ∀ item ∈ input, classRuntimeOk projectConfiguration item = true)
    (hnd : (deployTemplateIds projectConfiguration input).Nodup) :
    templateRouteKeys (synthesizedTemplate world input projectConfiguration ev0) =
      input.flatMap (itemRouteKeys projectConfiguration) := by
  unfold templateRouteKeys
  rw [template_resources_spec world input projectConfiguration ev0 hok hnd]
  simp only [List.filterMap_cons, routeEntryKey_apiGateway, List.filterMap_append,
    List.filterMap_nil, routeEntryKey_stage, routeEntryKey_deployment]
  rw [routeKeys_chunksFrom _ _ _ _ _ _ hok]
  simp

theorem routeEntryBinding_route (name apiGatewayResourceName routeKey
    integrationResourceName : String) :
    routeEntryBinding (name, routeResource apiGatewayResourceName routeKey
      integrationResourceName) = some (routeKey, integrationResourceName) := rfl

theorem routeEntryBinding_permission (name apiGatewayResourceName
    lambdaFunctionResourceName : String) :
    routeEntryBinding (name, invokePermissionResource apiGatewayResourceName
      lambdaFunctionResourceName) = none := rfl

theorem routeEntryBinding_integration (name apiGatewayResourceName
    lambdaFunctionResourceName : String) :
    routeEntryBinding (name, integrationResource apiGatewayResourceName
      lambdaFunctionResourceName) = none := rfl

theorem routeEntryBinding_lambda (name lambdaFunctionResourceName runtime
    roleResourceName bucketName bucketKey : String) (version : Option String) :
    routeEntryBinding (name, lambdaFunctionResource lambdaFunctionResourceName runtime
      roleResourceName bucketName bucketKey version) = none := by
  cases version <;> rfl

theorem routeEntryBinding_role (name : String) :
    routeEntryBinding (name, roleResource) = none := rfl

theorem routeEntryBinding_apiGateway (name apiGatewayResourceName : String) :
    routeEntryBinding (name, apiGatewayResource apiGatewayResourceName) = none := rfl

theorem routeEntryBinding_stage (name apiGatewayResourceName : String) :
    routeEntryBinding (name, apiStageResource apiGatewayResourceName) = none := rfl

theorem routeEntryBinding_deployment (name apiGatewayResourceName : String)
    (resourceIds : List String) :
    routeEntryBinding (name, apiDeploymentResource apiGatewayResourceName resourceIds) =
      none := rfl

theorem filterMap_routeBindingEntries (apiGatewayResourceName
    integrationResourceName : String) (inputItem : GenezioCloudInput) :
    ∀ ms : List Method,
      (ms.map (fun m => ("Route" ++ alphanumericString inputItem.name ++ m.name,
        routeResource apiGatewayResourceName
          ("ANY /" ++ inputItem.name ++ "/" ++ m.name)
          integrationResourceName))).filterMap routeEntryBinding =
      ms.map (fun m => ("ANY /" ++ inputItem.name ++ "/" ++ m.name,
        integrationResourceName)) := by
  intro ms
  induction ms with
  | nil => rfl
  | cons m rest ih =>
    simp only [List.map_cons, List.filterMap_cons, routeEntryBinding_route]
    rw [ih]

theorem routeBindings_chunk (projectConfiguration : ProjectConfiguration)
    (bucketName apiGatewayResourceName : String) (versionGen : Nat → String) (n : Nat)
    (inputItem : GenezioCloudInput)
    (hok : classRuntimeOk projectConfiguration inputItem = true) :
    (itemResourceChunk projectConfiguration bucketName apiGatewayResourceName versionGen
        n inputItem).filterMap routeEntryBinding =
      itemRouteBindings projectConfiguration inputItem := by
  obtain ⟨cls, runtime, hfind, hrt⟩ := classRuntimeOk_elim _ _ hok
  unfold itemResourceChunk itemRouteBindings classMethodsOf
  simp only [hfind, hrt]
  rw [List.filterMap_append, List.filterMap_append, filterMap_routeBindingEntries]
  simp only [List.filterMap_cons, List.filterMap_nil, routeEntryBinding_permission,
    routeEntryBinding_route, routeEntryBinding_integration, routeEntryBinding_lambda,
    routeEntryBinding_role]
  simp

theorem routeBindings_chunksFrom (projectConfiguration : ProjectConfiguration)
    (bucketName apiGatewayResourceName : String) (versionGen : Nat → String) :
    ∀ (items : List GenezioCloudInput) (n : Nat),
      (∀ item ∈ items, classRuntimeOk projectConfiguration item = true) →
      (chunksFrom projectConfiguration bucketName apiGatewayResourceName versionGen
          n items).filterMap routeEntryBinding =
        items.flatMap (itemRouteBindings projectConfiguration) := by
  intro items
  induction items with
  | nil => intro n _; rfl
  | cons inputItem rest ih =>
    intro n hok
    simp only [chunksFrom, List.flatMap_cons, List.filterMap_append]
    rw [routeBindings_chunk _ _ _ _ _ _ (hok inputItem (by simp)),
      ih (n + 1) (fun it hit => hok it (by simp [hit]))]

theorem templateRouteBindings_spec (world : AwsWorld) (input : List GenezioCloudInput)
    (projectConfiguration : ProjectConfiguration) (ev0 : List RemoteEvent)
    (hok : ∀ item ∈ input, classRuntimeOk projectConfiguration item = true)
    (hnd : (deployTemplateIds projectConfiguration input).Nodup) :
    templateRouteBindings (synthesizedTemplate world input projectConfiguration ev0) =
      input.flatMap (itemRouteBindings projectConfiguration) := by
  unfold templateRouteBindings
  rw [template_resources_spec world input projectConfiguration ev0 hok hnd]
  simp only [List.filterMap_cons, routeEntryBinding_apiGateway, List.filterMap_append,
    List.filterMap_nil, routeEntryBinding_stage, routeEntryBinding_deployment]
  rw [routeBindings_chunksFrom _ _ _ _ _ _ hok]
  simp

/-- C3. For every unit of a well-formed project, the synthesized template
contains one dedicated route `ANY /<unit>/<method>` per http-typed method
of the unit's class configuration, always contains the catch-all route
`ANY /<unit>`, and contains no dedicated route for any non-http method;
moreover every dedicated route of the unit and the unit's catch-all route
are bound to one and the same integration, the unit's own, and the
template's route-to-integration bindings are exactly the per-unit ones. -/
theorem route_completeness :
    ∀ (world : AwsWorld) (input : List GenezioCloudInput)
      (projectConfiguration : ProjectConfiguration) (ev0 : List RemoteEvent)
      (i : Nat) (hi : i < input.length),
      (∀ item ∈ input, classRuntimeOk projectConfiguration item = true) →
      (deployTemplateIds projectConfiguration input).Nodup →
      (input.map GenezioCloudInput.name).Nodup →
      (∀ item ∈ input, noSlash item.name = true) →
      (∀ item ∈ input,
        ((classMethodsOf projectConfiguration item).map Method.name).Nodup) →
      (∀ m ∈ classMethodsOf projectConfiguration (input.get ⟨i, hi⟩),
        m.type = "http" →
        ("ANY /" ++ (input.get ⟨i, hi⟩).name ++ "/" ++ m.name) ∈
          templateRouteKeys (synthesizedTemplate world input projectConfiguration ev0)) ∧
      ("ANY /" ++ (input.get ⟨i, hi⟩).name) ∈
        templateRouteKeys (synthesizedTemplate world input projectConfiguration ev0) ∧
      (∀ m ∈ classMethodsOf projectConfiguration (input.get ⟨i, hi⟩),
        m.type ≠ "http" →
        ("ANY /" ++ (input.get ⟨i, hi⟩).name ++ "/" ++ m.name) ∉
          templateRouteKeys (synthesizedTemplate world input projectConfiguration ev0)) ∧
      (∀ m ∈ classMethodsOf projectConfiguration (input.get ⟨i, hi⟩),
        m.type = "http" →
        ("ANY /" ++ (input.get ⟨i, hi⟩).name ++ "/" ++ m.name,
          "Integration" ++ alphanumericString (input.get ⟨i, hi⟩).name) ∈
          templateRouteBindings (synthesizedTemplate world input projectConfiguration ev0)) ∧
      ("ANY /" ++ (input.get ⟨i, hi⟩).name,
        "Integration" ++ alphanumericString (input.get ⟨i, hi⟩).name) ∈
        templateRouteBindings (synthesizedTemplate world input projectConfiguration ev0) ∧
      templateRouteBindings (synthesizedTemplate world input projectConfiguration ev0) =
        input.flatMap (itemRouteBindings projectConfiguration) := by
  intro world input projectConfiguration ev0 i hi hok hnd hnames hsf hmn
  have hitemmem : input.get ⟨i, hi⟩ ∈ input := List.get_mem _ _ hi
  rw [templateRouteKeys_spec world input projectConfiguration ev0 hok hnd,
    templateRouteBindings_spec world input projectConfiguration ev0 hok hnd]
  refine ⟨?_, ?_, ?_, ?_, ?_, rfl⟩
  rotate_left 3
  · intro m hm htype
    refine List.mem_flatMap.mpr ⟨input.get ⟨i, hi⟩, hitemmem, ?_⟩
    unfold itemRouteBindings
    refine List.mem_append_left _ ?_
    refine List.mem_map.mpr ⟨m, ?_, rfl⟩
    refine List.mem_filter.mpr ⟨hm, ?_⟩
    simp [htype]
  · refine List.mem_flatMap.mpr ⟨input.get ⟨i, hi⟩, hitemmem, ?_⟩
    unfold itemRouteBindings
    exact List.mem_append_right _ (by simp)
  · intro m hm htype
    refine List.mem_flatMap.mpr ⟨input.get ⟨i, hi⟩, hitemmem, ?_⟩
    unfold itemRouteKeys
    refine List.mem_append_left _ ?_
    refine List.mem_map.mpr ⟨m, ?_, rfl⟩
    refine List.mem_filter.mpr ⟨hm, ?_⟩
    simp [htype]
  · refine List.mem_flatMap.mpr ⟨input.get ⟨i, hi⟩, hitemmem, ?_⟩
    unfold itemRouteKeys
    exact List.mem_append_right _ (by simp)
  · intro m hm htype hcontra
    obtain ⟨item2, hitem2, hkey⟩ := List.mem_flatMap.mp hcontra
    unfold itemRouteKeys at hkey
    rcases List.mem_append.mp hkey with hdk | hck
    · obtain ⟨m2, hm2, heq⟩ := List.mem_map.mp hdk
      obtain ⟨hmem2, htype2⟩ := List.mem_filter.mp hm2
      obtain ⟨hnameq, hmnameq⟩ :=
        routeKey_dedicated_inj (hsf item2 hitem2)
          (hsf (input.get ⟨i, hi⟩) hitemmem) heq
      have hii : item2 = input.get ⟨i, hi⟩ :=
        List.inj_on_of_nodup_map hnames hitem2 hitemmem hnameq
      have hmm : m2 = m :=
        List.inj_on_of_nodup_map (hmn (input.get ⟨i, hi⟩) hitemmem)
          (hii ▸ hmem2) hm hmnameq
      apply htype
      rw [← hmm]
      exact eq_of_beq htype2
    · have hck2 : "ANY /" ++ (input.get ⟨i, hi⟩).name ++ "/" ++ m.name =
          "ANY /" ++ item2.name := by
        simpa using hck
      exact routeKey_dedicated_ne_catchall (hsf item2 hitem2) hck2

/-- Witness for C3 at the shop scenario: the Orders unit has routes
`ANY /Orders/invoice` and `ANY /Orders`, both bound to the integration
`IntegrationOrders`, and no route `ANY /Orders/list`. -/
theorem route_completeness_witness :
    (∀ item ∈ shopInput, classRuntimeOk shopProject item = true) ∧
    (deployTemplateIds shopProject shopInput).Nodup ∧
    (shopInput.map GenezioCloudInput.name).Nodup ∧
    (∀ item ∈ shopInput, noSlash item.name = true) ∧
    "ANY /Orders/invoice" ∈
      templateRouteKeys (synthesizedTemplate shopWorld shopInput shopProject []) ∧
    "ANY /Orders" ∈
      templateRouteKeys (synthesizedTemplate shopWorld shopInput shopProject []) ∧
    "ANY /Orders/list" ∉
      templateRouteKeys (synthesizedTemplate shopWorld shopInput shopProject []) ∧
    ("ANY /Orders/invoice", "IntegrationOrders") ∈
      templateRouteBindings (synthesizedTemplate shopWorld shopInput shopProject []) ∧
    ("ANY /Orders", "IntegrationOrders") ∈
      templateRouteBindings (synthesizedTemplate shopWorld shopInput shopProject []) :=
  ⟨by decide, by decide, by decide, by decide,
   (route_completeness shopWorld shopInput shopProject [] 0 (by decide) (by decide)
      (by decide) (by decide) (by decide) (by decide)).1
     { name := "invoice", type := "http", cronString := none } (by decide) rfl,
   (route_completeness shopWorld shopInput shopProject [] 0 (by decide) (by decide)
      (by decide) (by decide) (by decide) (by decide)).2.1,
   (route_completeness shopWorld shopInput shopProject [] 0 (by decide) (by decide)
      (by decide) (by decide) (by decide) (by decide)).2.2.1
     { name := "list", type := "jsonrpc", cronString := none } (by decide) (by decide),
   (route_completeness shopWorld shopInput shopProject [] 0 (by decide) (by decide)
      (by decide) (by decide) (by decide) (by decide)).2.2.2.1
     { name := "invoice", type := "http", cronString := none } (by decide) rfl,
   (route_completeness shopWorld shopInput shopProject [] 0 (by decide) (by decide)
      (by decide) (by decide) (by decide) (by decide)).2.2.2.2.1⟩

end Genezio
